import Mathlib

/-!
Verification development for the dotfiles bootstrap scripts.

Shallow embedding of:
  * `scripts/verifications/system-status-checker.py`
    (`CheckResult`, `run_command`, `generate_summary`, the parallel and
    sequential check-collection loops, `check_dependency_packages`,
    `check_local_taps`, `check_dotfiles_status`, `main`)
  * `scripts/cleanup/dotfiles.py`
    (`remove_file_or_symlink`, category dispatch in `run_cleanup`, `main`)
  * `scripts/installations/dotfiles.py`
    (`create_symlink`, `install_dotfiles`, `fail`, `main`)

The filesystem is modelled as an association list from absolute paths
(lists of components) to nodes (file / directory / symlink-with-target);
symlink resolution follows symlinks component by component the way
`pathlib.Path.resolve` does.  Machine-level failures of `os` calls are
represented by explicit outcome oracles where the code catches them.
-/

/-! ### ANSI color strings used in printed names and messages -/

def ColorsRED : String := "\x1b[91m"

def ColorsRESET : String := "\x1b[0m"

/-! ### `CheckResult` (system-status-checker.py, lines 29-53) -/

/-- Message kinds appended by `add_success` / `add_warning` / `add_error` /
`add_info`. -/
inductive MsgType where
  | success
  | warning
  | error
  | info
deriving DecidableEq, Repr

/-- Container for check results, mirroring class `CheckResult`:
a name, a success flag (default `True`) and the four message lists. -/
structure CheckResult where
  name : String
  success : Bool
  messages : List (MsgType × String)
  warnings : List String
  errors : List String
  info_messages : List String
deriving DecidableEq, Repr

/-- `CheckResult.__init__(name)` with the default `success=True`. -/
def CheckResult.mk0 (name : String) : CheckResult :=
  ⟨name, true, [], [], [], []⟩

/-- `add_success`: appends a `('success', message)` entry. -/
def CheckResult.add_success (r : CheckResult) (m : String) : CheckResult :=
  ⟨r.name, r.success, r.messages ++ [(MsgType.success, m)], r.warnings, r.errors,
    r.info_messages⟩

/-- `add_warning`: appends to `messages` and `warnings`. -/
def CheckResult.add_warning (r : CheckResult) (m : String) : CheckResult :=
  ⟨r.name, r.success, r.messages ++ [(MsgType.warning, m)], r.warnings ++ [m], r.errors,
    r.info_messages⟩

/-- `add_error`: appends to `messages` and `errors` and clears the success flag. -/
def CheckResult.add_error (r : CheckResult) (m : String) : CheckResult :=
  ⟨r.name, false, r.messages ++ [(MsgType.error, m)], r.warnings, r.errors ++ [m],
    r.info_messages⟩

/-- `add_info`: appends to `messages` and `info_messages`. -/
def CheckResult.add_info (r : CheckResult) (m : String) : CheckResult :=
  ⟨r.name, r.success, r.messages ++ [(MsgType.info, m)], r.warnings, r.errors,
    r.info_messages ++ [m]⟩

/-! ### `generate_summary` (lines 757-807) -/

/-- `all_errors`: the loop `for result in results: all_errors.extend(result.errors)`. -/
def allErrorsOf (results : List CheckResult) : List String :=
  results.foldl (fun acc r => acc ++ r.errors) []

/-- `all_warnings`: the loop `for result in results: all_warnings.extend(result.warnings)`. -/
def allWarningsOf (results : List CheckResult) : List String :=
  results.foldl (fun acc r => acc ++ r.warnings) []

/-- Number of `('success', _)` entries across all results (the OK lines
printed by `print_result`). -/
def passCountOf (results : List CheckResult) : Nat :=
  (results.map (fun r => r.messages.countP (fun m => decide (m.1 = MsgType.success)))).sum

/-- The observable outcome of `generate_summary`: the counts it prints
(`len(all_errors)` issues, `len(all_warnings)` warnings, plus the OK-line
count) and its return value `len(all_errors) == 0`. -/
structure SummaryReport where
  failCount : Nat
  warnCount : Nat
  passCount : Nat
  success : Bool
deriving DecidableEq, Repr

def generateSummary (results : List CheckResult) : SummaryReport :=
  ⟨(allErrorsOf results).length, (allWarningsOf results).length, passCountOf results,
    (allErrorsOf results).length == 0⟩

/-- `main`: `sys.exit(0 if success else 1)` (lines 949-956). -/
def statusCheckerExitCode (success : Bool) : Nat :=
  if success then 0 else 1

/-! ### Result collection (lines 809-895)

A check invocation either returns a `CheckResult` or raises; we model the
invocation outcome as `Except String CheckResult` keyed by the check
function's `__name__`.  Both `run_parallel_check` and
`run_sequential_check` convert each outcome with the same
`try/except` body; the parallel path merely consumes the outcomes in
completion order (a permutation of the submission order). -/

/-- The failed result built in the `except` branch:
`CheckResult(f"[ {RED}FAIL{RESET} ] {check_name}")` followed by
`add_error(f"Check failed with exception: {exc}")`. -/
def errorCheckResult (checkName exc : String) : CheckResult :=
  (CheckResult.mk0 ("[ " ++ ColorsRED ++ "FAIL" ++ ColorsRESET ++ " ] " ++ checkName)).add_error
    ("Check failed with exception: " ++ exc)

/-- The collection loop shared by both code paths: each outcome is
appended to `results`, a raising check contributing `errorCheckResult`. -/
def runChecksCollect : List (String × Except String CheckResult) → List CheckResult
  | [] => []
  | (_, Except.ok r) :: rest => r :: runChecksCollect rest
  | (nm, Except.error e) :: rest => errorCheckResult nm e :: runChecksCollect rest

/-- Per-outcome conversion applied by the collection loop. -/
def collectOne (c : String × Except String CheckResult) : CheckResult :=
  match c.2 with
  | Except.ok r => r
  | Except.error e => errorCheckResult c.1 e

/-- The eight check functions submitted by both code paths, by `__name__`,
in submission order. -/
def checkFunctionNames : List String :=
  ["check_homebrew_packages", "check_dependency_packages", "check_language_managers",
   "check_language_environments", "check_neovim_status", "check_dotfiles_status",
   "check_system_commands", "check_local_taps"]

/-- `run_sequential_check` on fixed per-check outcomes: collect in
submission order, then summarize. -/
def runSequentialCheck (outcomes : List (String × Except String CheckResult)) :
    SummaryReport :=
  generateSummary (runChecksCollect outcomes)

/-- `run_parallel_check` on fixed per-check outcomes: `as_completed`
yields the same outcomes in some completion order, and the same loop
body collects them. -/
def runParallelCheck (completionOrder : List (String × Except String CheckResult)) :
    SummaryReport :=
  generateSummary (runChecksCollect completionOrder)

/-! ### `CheckResult` mutation sequences (for the `CheckResult` invariant) -/

/-- One `add_*` call on a `CheckResult`. -/
inductive ResultOp where
  | success (m : String)
  | warning (m : String)
  | error (m : String)
  | info (m : String)
deriving DecidableEq, Repr

def applyOp (r : CheckResult) : ResultOp → CheckResult
  | ResultOp.success m => r.add_success m
  | ResultOp.warning m => r.add_warning m
  | ResultOp.error m => r.add_error m
  | ResultOp.info m => r.add_info m

def applyOps (r : CheckResult) (ops : List ResultOp) : CheckResult :=
  ops.foldl applyOp r

def isErrorOp : ResultOp → Bool
  | ResultOp.error _ => true
  | _ => false

def errMsgOf : ResultOp → Option String
  | ResultOp.error m => some m
  | _ => none

/-! ### `run_command` (lines 65-71)

`subprocess.run` either completes (returning a `CompletedProcess`) or the
subprocess machinery raises; `run_command` wraps the call in
`try/except` and returns `None` in the latter case. -/

structure CompletedProcess where
  returncode : Int
  stdout : String
deriving DecidableEq, Repr

inductive SubprocessBehavior where
  | completes (cp : CompletedProcess)
  | raises (msg : String)
deriving DecidableEq, Repr

def runCommand (b : SubprocessBehavior) : Option CompletedProcess :=
  match b with
  | SubprocessBehavior.completes cp => some cp
  | SubprocessBehavior.raises _ => none

/-! ### The filesystem model

Absolute paths are lists of components.  The filesystem is an association
list from paths to nodes; `lookupFs` returns the first binding.  Claims
are about paths whose parent directories are not themselves symlinks, so
plain entry lookup models `exists`/`is_symlink` on an entry's own path,
while full `Path.resolve` semantics (following symlinks component by
component, as needed for `~/.tmux.conf -> ~/.tmux/tmux.conf`) is modelled
by `resolveGo` below. -/

abbrev FPath := List String

inductive Node where
  | file
  | dir
  | symlink (target : FPath)
deriving DecidableEq, Repr

abbrev Fs := List (FPath × Node)

def isLinkNode : Node → Bool
  | Node.symlink _ => true
  | _ => false

def lookupFs : Fs → FPath → Option Node
  | [], _ => none
  | e :: rest, p => if e.1 = p then some e.2 else lookupFs rest p

/-- `shutil.rmtree`: removes the directory and everything below it. -/
def eraseTree (fs : Fs) (p : FPath) : Fs :=
  fs.filter (fun e => !decide (p <+: e.1))

/-- `Path.unlink`: removes the single entry at the path. -/
def removeEntry (fs : Fs) (p : FPath) : Fs :=
  fs.filter (fun e => !decide (e.1 = p))

/-- The shared removal branch of `remove_file_or_symlink` and
`create_symlink`: `rmtree` for a directory that is not a symlink,
`unlink` for a file or a symlink, no-op when nothing is there. -/
def removePath (fs : Fs) (p : FPath) : Fs :=
  match lookupFs fs p with
  | some Node.dir => eraseTree fs p
  | some _ => removeEntry fs p
  | none => fs

/-- What `remove_file_or_symlink` reports (cleanup/dotfiles.py lines
40-53): the guard `path.exists() or path.is_symlink()` holds exactly when
an entry is present at the path (a file or directory makes `exists()`
true, any symlink — broken or not — makes `is_symlink()` true); absent
paths are reported as already clean. -/
inductive CleanResult where
  | removed
  | alreadyClean
deriving DecidableEq, Repr

def removeFileOrSymlink (fs : Fs) (p : FPath) : Fs × CleanResult :=
  match lookupFs fs p with
  | none => (fs, CleanResult.alreadyClean)
  | some Node.dir => (eraseTree fs p, CleanResult.removed)
  | some _ => (removeEntry fs p, CleanResult.removed)

/-- Symlink resolution in the style of `pathlib.Path.resolve` with
`strict=False`: walk the components left to right; on meeting a symlink,
restart at its (absolute) target with the remaining components appended;
on a component that is not a traversable entry, keep appending the
remainder lexically, as the non-strict resolver does.  `fuel` bounds the
number of symlink hops (resolution of a loop stops when fuel runs out). -/
def resolveGo (fs : Fs) (fuel : Nat) (acc : FPath) (rest : FPath) : FPath :=
  match rest with
  | [] => acc
  | c :: rs =>
    match lookupFs fs (acc ++ [c]) with
    | some (Node.symlink t) =>
      match fuel with
      | 0 => acc ++ c :: rs
      | f + 1 => resolveGo fs f [] (t ++ rs)
    | _ => resolveGo fs fuel (acc ++ [c]) rs
termination_by (fuel, rest.length)

def resolvePath (fs : Fs) (p : FPath) : FPath :=
  resolveGo fs (fs.length + p.length + 1) [] p

/-- `Path.exists()`: the fully resolved path has an entry. -/
def existsResolve (fs : Fs) (p : FPath) : Bool :=
  (lookupFs fs (resolvePath fs p)).isSome

/-- `Path.is_dir()`: the fully resolved path is a directory. -/
def isDirResolve (fs : Fs) (p : FPath) : Bool :=
  match lookupFs fs (resolvePath fs p) with
  | some Node.dir => true
  | _ => false

/-- `Path.is_symlink()`: resolve the parent, then look at the final
component without following it. -/
def isSymlinkF (fs : Fs) (p : FPath) : Bool :=
  match p.getLast? with
  | none => false
  | some c =>
    match lookupFs fs (resolvePath fs p.dropLast ++ [c]) with
    | some (Node.symlink _) => true
    | _ => false

/-- All ancestors of `target`'s parent, outermost first
(`target.parent.mkdir(parents=True, exist_ok=True)` visits them in this
order). -/
def properPrefixes (p : FPath) : List FPath :=
  (List.range (p.length - 1)).map (fun k => p.take (k + 1))

/-- The success path of `mkdir(parents=True, exist_ok=True)`: every
missing ancestor is created as a directory, existing ones are left
alone. -/
def mkdirFold (fs : Fs) (target : FPath) : Fs :=
  (properPrefixes target).foldl
    (fun acc q => if (lookupFs acc q).isSome then acc else (q, Node.dir) :: acc) fs

/-- `mkdir(parents=True, exist_ok=True)` on each ancestor in turn: a
missing ancestor is created as a directory; an existing one is accepted
only when `is_dir()` holds (`exist_ok` suppresses the error only for a
directory) — an ancestor that exists as a file, or as a symlink not
resolving to a directory, raises `FileExistsError`/`NotADirectoryError`,
modelled as `none`. -/
def mkdirParentsGo : Fs → List FPath → Option Fs
  | fs, [] => some fs
  | fs, q :: rest =>
    match lookupFs fs q with
    | none => mkdirParentsGo ((q, Node.dir) :: fs) rest
    | some Node.dir => mkdirParentsGo fs rest
    | some _ => if isDirResolve fs q then mkdirParentsGo fs rest else none

def mkdirParents (fs : Fs) (target : FPath) : Option Fs :=
  mkdirParentsGo fs (properPrefixes target)

/-- The state produced by a successful `create_symlink(source, target)`:
parent directories ensured, whatever sat at `target` removed, then
`target.symlink_to(source)`. -/
def createSymlinkF (fs : Fs) (source target : FPath) : Fs :=
  (target, Node.symlink source) :: removePath (mkdirFold fs target) target

/-- `create_symlink(source, target)` (installations/dotfiles.py lines
48-70): ensure the parent directory exists, remove whatever sits at
`target`, then `target.symlink_to(source)`.  A state-determined failure
(`mkdir` hitting a non-directory ancestor) reaches the `except` branch,
whose `self.fail` calls `sys.exit(1)`; that aborted run is `none`. -/
def createSymlink (fs : Fs) (source target : FPath) : Option Fs :=
  match mkdirParents fs target with
  | none => none
  | some fs1 => some ((target, Node.symlink source) :: removePath fs1 target)

/-! ### The dotfiles installer (installations/dotfiles.py lines 72-125) -/

/-- The `dotfiles` table: (source under the repo cwd, target under home). -/
def dotfilesTable (cwd home : FPath) : List (FPath × FPath) :=
  [(cwd ++ ["gitconfig"], home ++ [".gitconfig"]),
   (cwd ++ ["screenrc"], home ++ [".screenrc"]),
   (cwd ++ ["sshrc"], home ++ [".ssh", "rc"]),
   (cwd ++ ["zsh", "zshrc"], home ++ [".zshrc"])]

/-- The `directories` table. -/
def directoriesTable (cwd home : FPath) : List (FPath × FPath) :=
  [(cwd ++ ["zsh", "zplug"], home ++ [".zplug"]),
   (cwd ++ ["tmux"], home ++ [".tmux"]),
   (cwd ++ ["tools"], home ++ [".tools"])]

/-- One loop iteration of `install_dotfiles`: skip (with a warning) when
the source does not exist, otherwise `create_symlink`; `none` when
`create_symlink` exits the process. -/
def installEntry (fs : Fs) (e : FPath × FPath) : Option Fs :=
  if existsResolve fs e.1 then createSymlink fs e.1 e.2 else some fs

/-- The table loop of `install_dotfiles`: a `create_symlink` failure
exits the process, so no later entry is attempted. -/
def installList : Fs → List (FPath × FPath) → Option Fs
  | fs, [] => some fs
  | fs, e :: rest =>
    match installEntry fs e with
    | none => none
    | some fs1 => installList fs1 rest

/-- `install_dotfiles`: both tables in order, then the special handling
for `~/.tmux.conf`, whose source is the file `tmux.conf` inside the
just-linked `~/.tmux`; `none` is the run that died in `self.fail` with
exit code 1. -/
def installDotfiles (cwd home : FPath) (fs : Fs) : Option Fs :=
  match installList fs (dotfilesTable cwd home ++ directoriesTable cwd home) with
  | none => none
  | some fs1 =>
    if existsResolve fs1 (home ++ [".tmux", "tmux.conf"]) then
      createSymlink fs1 (home ++ [".tmux", "tmux.conf"]) (home ++ [".tmux.conf"])
    else some fs1

/-! ### `check_dotfiles_status` (system-status-checker.py lines 601-675) -/

/-- Status of one managed entry as classified by the checker:
exists → is_symlink → resolved target equals `Path.cwd() / repo_path`. -/
inductive LinkStatus where
  | correctlyLinked
  | wrongTarget
  | notSymlinked
  | clean
deriving DecidableEq, Repr

def checkEntryStatus (fs : Fs) (cwd : FPath) (homePath : FPath) (repoRel : List String) :
    LinkStatus :=
  if existsResolve fs homePath then
    if isSymlinkF fs homePath then
      if resolvePath fs homePath = cwd ++ repoRel then LinkStatus.correctlyLinked
      else LinkStatus.wrongTarget
    else LinkStatus.notSymlinked
  else LinkStatus.clean

/-- `managed_dotfiles` (lines 606-612), repo paths split into components. -/
def managedDotfiles (home : FPath) : List (FPath × List String) :=
  [(home ++ [".zshrc"], ["zsh", "zshrc"]),
   (home ++ [".gitconfig"], ["gitconfig"]),
   (home ++ [".tmux.conf"], ["tmux", "tmux.conf"]),
   (home ++ [".screenrc"], ["screenrc"]),
   (home ++ [".ssh", "rc"], ["sshrc"])]

/-- `managed_directories` (lines 615-619). -/
def managedDirectories (home : FPath) : List (FPath × List String) :=
  [(home ++ [".tmux"], ["tmux"]),
   (home ++ [".zplug"], ["zsh", "zplug"]),
   (home ++ [".tools"], ["tools"])]

/-- The repo-relative paths `install_dotfiles` reads as sources. -/
def repoSources : List (List String) :=
  [["gitconfig"], ["screenrc"], ["sshrc"], ["zsh", "zshrc"],
   ["zsh", "zplug"], ["tmux"], ["tools"], ["tmux", "tmux.conf"]]

/-- The home-relative suffixes of every path `install_dotfiles` writes. -/
def targetSuffixes : List (List String) :=
  [[".gitconfig"], [".screenrc"], [".ssh", "rc"], [".zshrc"],
   [".zplug"], [".tmux"], [".tools"], [".tmux.conf"]]

def allInstallTargets (home : FPath) : List FPath :=
  targetSuffixes.map (fun a => home ++ a)

/-! ### The per-item loops of cleanup and install (for error handling) -/

/-- Whether the `os`-level operation of the current item raises. -/
inductive OpOutcome where
  | ok
  | raises (msg : String)
deriving DecidableEq, Repr

/-- The cleanup table loop: `remove_file_or_symlink` catches its own
exception (printing a warning) so the loop always reaches the next item.
Returns (final state, items attempted, warnings logged). -/
def cleanupTableRun (fs : Fs) : List (FPath × OpOutcome) → Fs × Nat × Nat
  | [] => (fs, 0, 0)
  | (p, OpOutcome.ok) :: rest =>
    let out := cleanupTableRun (removeFileOrSymlink fs p).1 rest
    (out.1, out.2.1 + 1, out.2.2)
  | (_, OpOutcome.raises _) :: rest =>
    let out := cleanupTableRun fs rest
    (out.1, out.2.1 + 1, out.2.2 + 1)

/-- How an installer table run ends: normally, or via `self.fail`, which
prints the message and calls `sys.exit(1)`. -/
inductive InstallRun where
  | finished (fs : Fs) (attempted : Nat)
  | exited (code : Nat) (fs : Fs) (attempted : Nat)
deriving DecidableEq, Repr

/-- The installer table loop: `create_symlink`'s `except` branch calls
`self.fail(...)`, i.e. `sys.exit(1)`, so a raising item — whether the
oracle says the `os` call raises, or `mkdir` meets a non-directory
ancestor — terminates the process and later items are never attempted. -/
def installTableRun (fs : Fs) : List (FPath × FPath × OpOutcome) → InstallRun
  | [] => InstallRun.finished fs 0
  | (s, t, OpOutcome.ok) :: rest =>
    match createSymlink fs s t with
    | none => InstallRun.exited 1 fs 1
    | some fs1 =>
      match installTableRun fs1 rest with
      | InstallRun.finished f a => InstallRun.finished f (a + 1)
      | InstallRun.exited c f a => InstallRun.exited c f (a + 1)
  | (_, _, OpOutcome.raises _) :: _ => InstallRun.exited 1 fs 1

/-! ### Cleanup categories and confirmation (cleanup/dotfiles.py) -/

inductive Category where
  | zsh
  | git
  | tmux
  | terminal
  | ssh
  | tools
  | neovim
deriving DecidableEq, Repr

/-- The seven category methods in the order `run_cleanup` calls them. -/
def allCategories : List Category :=
  [Category.zsh, Category.git, Category.tmux, Category.terminal,
   Category.ssh, Category.tools, Category.neovim]

def categoryName : Category → String
  | Category.zsh => "zsh"
  | Category.git => "git"
  | Category.tmux => "tmux"
  | Category.terminal => "terminal"
  | Category.ssh => "ssh"
  | Category.tools => "tools"
  | Category.neovim => "neovim"

/-- The category dispatch of `run_cleanup` (lines 199-222): with `'all'`
present every method runs; otherwise each of the seven `if 'name' in
categories` guards runs its method, in the fixed order. -/
def executedCategories (cats : List String) : List Category :=
  if "all" ∈ cats then allCategories
  else allCategories.filter (fun c => decide (categoryName c ∈ cats))

/-- argparse default for the categories flag. -/
def defaultCategories : List String := ["all"]

/-- The confirmation gate (lines 188-194): auto-confirm, or the exact
input `YES`. -/
def confirmProceeds (autoConfirm : Bool) (input : String) : Bool :=
  autoConfirm || input == "YES"

inductive CleanupOutcome where
  | performed (cats : List Category)
  | cancelled
deriving DecidableEq, Repr

/-- `run_cleanup`: on a refused confirmation it prints the FAIL line and
`return`s; otherwise it dispatches the categories.  Either way it returns
normally to `main`. -/
def runCleanup (autoConfirm : Bool) (input : String) (cats : List String) :
    CleanupOutcome :=
  if confirmProceeds autoConfirm input then
    CleanupOutcome.performed (executedCategories cats)
  else CleanupOutcome.cancelled

/-- How the Python process for the cleanup script terminates. -/
inductive PyTermination where
  | normalReturn
  | keyboardInterrupt
  | uncaughtException (msg : String)
deriving DecidableEq, Repr

/-- `main` (lines 255-264): `sys.exit(1)` in the two `except` handlers;
a normal return from `run_cleanup` falls off the end of `main`, so the
interpreter exits with code 0. -/
def cleanupMainExitCode : PyTermination → Nat
  | PyTermination.normalReturn => 0
  | PyTermination.keyboardInterrupt => 1
  | PyTermination.uncaughtException _ => 1

/-- Exit code of the cleanup script as a function of the confirmation
input: both the performed and the cancelled branch of `run_cleanup`
return normally, so absent exceptions the process exits 0. -/
def cleanupScriptExitCode (autoConfirm : Bool) (input : String) (cats : List String) :
    Nat :=
  match runCleanup autoConfirm input cats with
  | CleanupOutcome.performed _ => cleanupMainExitCode PyTermination.normalReturn
  | CleanupOutcome.cancelled => cleanupMainExitCode PyTermination.normalReturn

/-! ### `check_dependency_packages` (lines 336-376) -/

/-- Python `str.title()`: uppercase an alphabetic character that follows a
non-alphabetic one, lowercase the rest. -/
def pyTitleAux : List Char → Bool → List Char
  | [], _ => []
  | c :: cs, prevAlpha =>
    (if c.isAlpha then (if prevAlpha then c.toLower else c.toUpper) else c) ::
      pyTitleAux cs c.isAlpha

def pyTitle (s : String) : String :=
  String.mk (pyTitleAux s.toList false)

/-- `essential_packages` (lines 341-353). -/
def essentialPackages : List (String × List String) :=
  [("core", ["zsh", "git", "tree", "fzf", "ripgrep"]),
   ("editor", ["neovim", "universal-ctags"]),
   ("terminal", ["tmux"]),
   ("python", ["uv"]),
   ("nodejs", ["fnm", "pnpm"]),
   ("golang", ["go"]),
   ("java-prereq", ["zip", "unzip", "curl"]),
   ("rust", ["rustup-init"]),
   ("devops", ["kubectl", "helm", "terraform", "terragrunt"]),
   ("cloud", ["awscli"]),
   ("network", ["openssh", "sshs", "teleport"])]

/-- One package probe: `brew list <pkg>` succeeding yields an
`Available` success line, anything else (nonzero return code or a raise)
yields a `Clean` success line. -/
def depPackageStep (env : String → SubprocessBehavior)
    (acc : CheckResult × List String × List String) (category pkg : String) :
    CheckResult × List String × List String :=
  match runCommand (env ("brew list " ++ pkg)) with
  | some cp =>
    if cp.returncode == 0 then
      (acc.1.add_success ("  • " ++ pkg ++ " - Available"),
       acc.2.1 ++ [category ++ "/" ++ pkg], acc.2.2)
    else
      (acc.1.add_success ("  • " ++ pkg ++ " - Clean"),
       acc.2.1, acc.2.2 ++ [category ++ "/" ++ pkg])
  | none =>
    (acc.1.add_success ("  • " ++ pkg ++ " - Clean"),
     acc.2.1, acc.2.2 ++ [category ++ "/" ++ pkg])

def checkDependencyPackages (env : String → SubprocessBehavior) : CheckResult :=
  let init : CheckResult × List String × List String :=
    (CheckResult.mk0 "📦 Checking Dependency Packages", [], [])
  let out := essentialPackages.foldl
    (fun acc cat =>
      let acc1 : CheckResult × List String × List String :=
        (acc.1.add_info ("🔍 " ++ pyTitle cat.1 ++ " packages:"), acc.2)
      cat.2.foldl (fun a pkg => depPackageStep env a cat.1 pkg) acc1)
    init
  let installedCount := out.2.1.length
  let total := out.2.1.length + out.2.2.length
  if installedCount == 0 then
    out.1.add_info ("📋 Summary: All clean (" ++ toString installedCount ++ "/" ++
      toString total ++ " available)")
  else
    out.1.add_info ("📋 Summary: " ++ toString installedCount ++ "/" ++
      toString total ++ " installed")

/-- An environment in which every `brew list` invocation completes with a
nonzero return code (no package installed): a failed invocation on every
probe. -/
def depEnvAllFail : String → SubprocessBehavior :=
  fun _ => SubprocessBehavior.completes ⟨1, ""⟩

/-! ### `check_local_taps` (lines 710-755) -/

/-- Python `sub in s` for a nonempty `sub`. -/
def pyContains (s sub : String) : Bool :=
  (s.splitOn sub).length > 1

/-- A path string as components (absolute paths drop the leading slash). -/
def pathOfString (s : String) : FPath :=
  (s.splitOn "/").filter (fun c => !(c == ""))

/-- `Path.stem` of a file name. -/
def fileStem (n : String) : String :=
  let parts := n.splitOn "."
  if parts.length ≤ 1 then n else String.intercalate "." parts.dropLast

/-- `formula_dir.glob("*.rb")`: the entries directly inside the directory
whose names end in `.rb`. -/
def globRbEntries (fs : Fs) (dir : FPath) : List FPath :=
  (fs.map Prod.fst).filter
    (fun q => decide (dir <+: q) && q.length == dir.length + 1 &&
      ((q.getLast?).getD "").endsWith ".rb")

def localTapLine (checkType : String) (r : CheckResult) (tap : String) : CheckResult :=
  if checkType == "cleaned" then r.add_warning ("  • " ++ tap ++ " - INSTALLED")
  else r.add_success ("  • " ++ tap ++ " - Available")

def localTapFormulas (fs : Fs) (r : CheckResult) (tap : String) : CheckResult :=
  let tapPath := pathOfString ("/opt/homebrew/Library/Taps/" ++
    (tap.replace "/" "/homebrew-"))
  let formulaDir := tapPath ++ ["Formula"]
  if existsResolve fs formulaDir then
    let formulas := globRbEntries fs formulaDir
    if !(formulas == []) then
      let r1 := r.add_info ("      📋 Formulas (" ++ toString formulas.length ++ "):")
      formulas.foldl (fun a f => a.add_info ("     • " ++ fileStem ((f.getLast?).getD ""))) r1
    else r.add_info "      📋 No formulas found"
  else r.add_info "      📋 No Formula directory"

def checkLocalTaps (checkType : String) (env : String → SubprocessBehavior) (fs : Fs) :
    CheckResult :=
  let result := CheckResult.mk0 "🏠 Checking Local Taps"
  match runCommand (env "brew tap") with
  | some cp =>
    if cp.returncode == 0 then
      let stripped := cp.stdout.trim
      let taps := if !(stripped == "") then stripped.splitOn "\n" else []
      let localTaps := taps.filter (fun tap => pyContains tap "local/")
      let result := result.add_info "🔍 Local tap directories:"
      if !(localTaps == []) then
        let result := localTaps.foldl
          (fun r tap => localTapFormulas fs (localTapLine checkType r tap) tap) result
        result.add_info ("📋 Summary: " ++ toString localTaps.length ++ " installed")
      else
        let result := result.add_success "  • No local taps found - Clean"
        result.add_info "📋 Summary: All clean (0 found)"
    else result.add_warning "Could not check taps status (brew tap failed)"
  | none => result.add_warning "Could not check taps status (brew tap failed)"

/-- Whether an item's operation raises. -/
def isRaise : OpOutcome → Bool
  | OpOutcome.raises _ => true
  | OpOutcome.ok => false

/-! ### Invariants used in the installer correctness proof -/

/-- Every symlink of `fs` is either a symlink of the initial state or one
of the paths the installer writes. -/
def LinksOK (fs0 fs : Fs) (home : FPath) : Prop :=
  ∀ q n, (q, n) ∈ fs → isLinkNode n = true → (q, n) ∈ fs0 ∨ q ∈ allInstallTargets home

/-- Lookups away from the home-managed area are untouched. -/
def PresOK (fs0 fs : Fs) (home : FPath) : Prop :=
  ∀ q : FPath, ¬ home <+: q → ¬ q <+: home → lookupFs fs q = lookupFs fs0 q

/-- No prefix of `p` (including `p` itself) is a symlink, so resolution
of `p` walks straight through. -/
def NoLinkBelow (fs : Fs) (p : FPath) : Prop :=
  ∀ q : FPath, q <+: p → ∀ t, lookupFs fs q ≠ some (Node.symlink t)

/-- Every ancestor the installer's `mkdir` calls can meet — the prefixes
of `home`, and `~/.ssh` — is absent or a directory, so `mkdir` never
raises. -/
def DirsOK (fs : Fs) (home : FPath) : Prop :=
  (∀ q : FPath, q <+: home →
    lookupFs fs q = none ∨ lookupFs fs q = some Node.dir) ∧
  (lookupFs fs (home ++ [".ssh"]) = none ∨
    lookupFs fs (home ++ [".ssh"]) = some Node.dir)

/-! ### Sample data used by witnesses -/

/-- Eight fixed outcomes for the eight check functions, one of them
raising. -/
def c1Outcomes : List (String × Except String CheckResult) :=
  [("check_homebrew_packages",
      Except.ok ((CheckResult.mk0 "📦 Homebrew Packages").add_warning "1 formulae installed")),
   ("check_dependency_packages", Except.error "division by zero"),
   ("check_language_managers", Except.ok (CheckResult.mk0 "🔧 Language Managers")),
   ("check_language_environments",
      Except.ok ((CheckResult.mk0 "🔧 Checking Language Environments").add_success "ok")),
   ("check_neovim_status", Except.ok (CheckResult.mk0 "📝 Checking Neovim Status")),
   ("check_dotfiles_status",
      Except.ok ((CheckResult.mk0 "⚙️  Checking Dotfiles Status").add_error "broken link")),
   ("check_system_commands", Except.ok (CheckResult.mk0 "🔍 Checking System Commands")),
   ("check_local_taps", Except.ok (CheckResult.mk0 "🏠 Checking Local Taps"))]

/-- The same outcomes in a different completion order. -/
def c1Order : List (String × Except String CheckResult) :=
  c1Outcomes.reverse

/-- A sample home directory for the installer witness. -/
def c4Home : FPath := ["home", "u"]

/-- A sample repository working directory for the installer witness. -/
def c4Cwd : FPath := ["repo", "dotfiles"]

/-- A sample initial filesystem: all repository sources present, plus
pre-existing content at several managed paths (a plain file at
`~/.zshrc`, a directory with a child at `~/.tmux`, a foreign symlink at
`~/.gitconfig`) that the installer must replace. -/
def c4Fs0 : Fs :=
  [(c4Cwd ++ ["gitconfig"], Node.file),
   (c4Cwd ++ ["screenrc"], Node.file),
   (c4Cwd ++ ["sshrc"], Node.file),
   (c4Cwd ++ ["zsh"], Node.dir),
   (c4Cwd ++ ["zsh", "zshrc"], Node.file),
   (c4Cwd ++ ["zsh", "zplug"], Node.dir),
   (c4Cwd ++ ["tmux"], Node.dir),
   (c4Cwd ++ ["tmux", "tmux.conf"], Node.file),
   (c4Cwd ++ ["tools"], Node.dir),
   (c4Home ++ [".zshrc"], Node.file),
   (c4Home ++ [".tmux"], Node.dir),
   (c4Home ++ [".tmux", "old.conf"], Node.file),
   (c4Home ++ [".gitconfig"], Node.symlink ["tmp", "oldgitconfig"]),
   (c4Home ++ [".ssh"], Node.dir)]

/-- Three fixed outcomes: an ok check, a raising check, another ok check. -/
def c2Checks : List (String × Except String CheckResult) :=
  [("check_homebrew_packages", Except.ok ((CheckResult.mk0 "📦 Homebrew Packages").add_success "ok")),
   ("check_dependency_packages", Except.error "boom"),
   ("check_local_taps", Except.ok (CheckResult.mk0 "🏠 Checking Local Taps"))]

/-! ### Supporting lemmas about collection and summaries -/

theorem runChecksCollect_eq_map (outcomes : List (String × Except String CheckResult)) :
    runChecksCollect outcomes = outcomes.map collectOne := by
  induction outcomes with
  | nil => rfl
  | cons c rest ih =>
    obtain ⟨nm, out⟩ := c
    cases out with
    | ok r => simpa [runChecksCollect, collectOne] using ih
    | error e => simpa [runChecksCollect, collectOne] using ih

theorem foldl_append_eq_flatten {α β : Type} (f : α → List β) :
    ∀ (l : List α) (acc : List β),
      l.foldl (fun a r => a ++ f r) acc = acc ++ (l.map f).flatten := by
  intro l
  induction l with
  | nil => intro acc; simp
  | cons x xs ih => intro acc; simp [List.foldl, ih]

theorem allErrorsOf_eq_flatten (results : List CheckResult) :
    allErrorsOf results = (results.map (fun r => r.errors)).flatten := by
  simpa [allErrorsOf] using foldl_append_eq_flatten (fun r : CheckResult => r.errors) results []

theorem allWarningsOf_eq_flatten (results : List CheckResult) :
    allWarningsOf results = (results.map (fun r => r.warnings)).flatten := by
  simpa [allWarningsOf] using
    foldl_append_eq_flatten (fun r : CheckResult => r.warnings) results []

theorem generateSummary_perm {rs₁ rs₂ : List CheckResult} (h : rs₁.Perm rs₂) :
    generateSummary rs₁ = generateSummary rs₂ := by
  have herr : (allErrorsOf rs₁).length = (allErrorsOf rs₂).length := by
    rw [allErrorsOf_eq_flatten, allErrorsOf_eq_flatten]
    exact ((h.map (fun r => r.errors)).flatten).length_eq
  have hwarn : (allWarningsOf rs₁).length = (allWarningsOf rs₂).length := by
    rw [allWarningsOf_eq_flatten, allWarningsOf_eq_flatten]
    exact ((h.map (fun r => r.warnings)).flatten).length_eq
  have hpass : passCountOf rs₁ = passCountOf rs₂ := by
    unfold passCountOf
    exact (h.map (fun r => r.messages.countP (fun m => decide (m.1 = MsgType.success)))).sum_eq
  simp [generateSummary, herr, hwarn, hpass]

theorem applyOp_errors (r : CheckResult) (op : ResultOp) :
    (applyOp r op).errors = r.errors ++ (errMsgOf op).toList := by
  cases op <;>
    simp [applyOp, errMsgOf, CheckResult.add_success, CheckResult.add_warning,
      CheckResult.add_error, CheckResult.add_info]

theorem applyOp_success (r : CheckResult) (op : ResultOp) :
    (applyOp r op).success = (r.success && !isErrorOp op) := by
  cases op <;>
    simp [applyOp, isErrorOp, CheckResult.add_success, CheckResult.add_warning,
      CheckResult.add_error, CheckResult.add_info]

theorem applyOps_errors :
    ∀ (ops : List ResultOp) (r : CheckResult),
      (applyOps r ops).errors = r.errors ++ ops.filterMap errMsgOf := by
  intro ops
  induction ops with
  | nil => intro r; simp [applyOps]
  | cons op rest ih =>
    intro r
    have h1 : applyOps r (op :: rest) = applyOps (applyOp r op) rest := rfl
    rw [h1, ih, applyOp_errors]
    cases op <;> simp [errMsgOf]

theorem applyOps_success :
    ∀ (ops : List ResultOp) (r : CheckResult),
      (applyOps r ops).success = (r.success && !ops.any isErrorOp) := by
  intro ops
  induction ops with
  | nil => intro r; simp [applyOps]
  | cons op rest ih =>
    intro r
    have h1 : applyOps r (op :: rest) = applyOps (applyOp r op) rest := rfl
    rw [h1, ih, applyOp_success]
    cases op <;> simp [isErrorOp, Bool.and_assoc]

theorem errMsgOf_eq_none_iff (op : ResultOp) :
    errMsgOf op = none ↔ ∀ s, op ≠ ResultOp.error s := by
  cases op <;> simp [errMsgOf]

/-- C9: starting from a `CheckResult` constructed with the default
`success=True`, after any finite sequence of `add_success`, `add_warning`,
`add_info`, `add_error` calls the success flag is `False` iff some
`add_error` occurred, equivalently iff the errors list is non-empty; and
`add_warning`/`add_info` never change the success flag. -/
theorem c9_checkresult_success_invariant (name : String) (ops : List ResultOp)
    (r : CheckResult) (m : String) :
    ((applyOps (CheckResult.mk0 name) ops).success = false ↔
        ∃ s, ResultOp.error s ∈ ops) ∧
    ((applyOps (CheckResult.mk0 name) ops).success = false ↔
        (applyOps (CheckResult.mk0 name) ops).errors ≠ []) ∧
    (r.add_warning m).success = r.success ∧
    (r.add_info m).success = r.success := by
  have hsucc : (applyOps (CheckResult.mk0 name) ops).success = !ops.any isErrorOp := by
    rw [applyOps_success]; simp [CheckResult.mk0]
  have herr : (applyOps (CheckResult.mk0 name) ops).errors = ops.filterMap errMsgOf := by
    rw [applyOps_errors]; simp [CheckResult.mk0]
  refine ⟨?_, ?_, rfl, rfl⟩
  · rw [hsucc]
    constructor
    · intro h
      have hany : ops.any isErrorOp = true := by
        cases hx : ops.any isErrorOp with
        | true => rfl
        | false => rw [hx] at h; simp at h
      obtain ⟨op, hmem, hop⟩ := List.any_eq_true.mp hany
      cases op with
      | error s => exact ⟨s, hmem⟩
      | success s => simp [isErrorOp] at hop
      | warning s => simp [isErrorOp] at hop
      | info s => simp [isErrorOp] at hop
    · rintro ⟨s, hmem⟩
      have : ops.any isErrorOp = true := List.any_eq_true.mpr ⟨_, hmem, rfl⟩
      rw [this]; rfl
  · rw [hsucc, herr]
    constructor
    · intro h hnil
      have hall : ∀ op ∈ ops, errMsgOf op = none := List.filterMap_eq_nil_iff.mp hnil
      have hany : ops.any isErrorOp = true := by
        cases hx : ops.any isErrorOp with
        | true => rfl
        | false => rw [hx] at h; simp at h
      obtain ⟨op, hmem, hop⟩ := List.any_eq_true.mp hany
      cases op with
      | error s => have := hall _ hmem; simp [errMsgOf] at this
      | success s => simp [isErrorOp] at hop
      | warning s => simp [isErrorOp] at hop
      | info s => simp [isErrorOp] at hop
    · intro h
      cases hx : ops.any isErrorOp with
      | true => rfl
      | false =>
        exfalso
        apply h
        apply List.filterMap_eq_nil_iff.mpr
        intro op hmem
        have hop : isErrorOp op = false := by
          cases hy : isErrorOp op with
          | false => rfl
          | true =>
            have : ops.any isErrorOp = true := List.any_eq_true.mpr ⟨op, hmem, hy⟩
            rw [this] at hx; cases hx
        cases op <;> simp [errMsgOf] <;> simp [isErrorOp] at hop

/-- C10: the status checker exits 0 iff no collected `CheckResult` holds
any error message; `generate_summary` returns `True` exactly when the
concatenation of all results' error lists is empty; warnings never affect
the exit code. -/
theorem c10_exit_zero_iff_no_errors (results : List CheckResult) (m : String) :
    (statusCheckerExitCode (generateSummary results).success = 0 ↔
        allErrorsOf results = []) ∧
    ((generateSummary results).success = true ↔ allErrorsOf results = []) ∧
    (allErrorsOf results = [] ↔ ∀ r ∈ results, r.errors = []) ∧
    (generateSummary (results.map (fun r => r.add_warning m))).success =
      (generateSummary results).success := by
  have hsucc : (generateSummary results).success = true ↔ allErrorsOf results = [] := by
    simp [generateSummary]
  refine ⟨?_, hsucc, ?_, ?_⟩
  · rw [← hsucc]
    cases h : (generateSummary results).success <;> simp [statusCheckerExitCode]
  · rw [allErrorsOf_eq_flatten]
    simp
  · have herr : allErrorsOf (results.map (fun r => r.add_warning m)) = allErrorsOf results := by
      rw [allErrorsOf_eq_flatten, allErrorsOf_eq_flatten, List.map_map]
      rfl
    simp [generateSummary, herr]

/-- C1: for fixed outcomes of the eight check functions, the parallel
path (collecting in any completion order) and the sequential path produce
the same summary pass/fail/warn counts and the same boolean success value
from `generate_summary`. -/
theorem c1_parallel_sequential_summary_agree
    (outcomes completionOrder : List (String × Except String CheckResult))
    (hnames : outcomes.map Prod.fst = checkFunctionNames)
    (hperm : completionOrder.Perm outcomes) :
    runParallelCheck completionOrder = runSequentialCheck outcomes := by
  unfold runParallelCheck runSequentialCheck
  rw [runChecksCollect_eq_map, runChecksCollect_eq_map]
  exact generateSummary_perm (hperm.map collectOne)

theorem c1_witness :
    c1Outcomes.map Prod.fst = checkFunctionNames ∧
    c1Order.Perm c1Outcomes ∧
    runParallelCheck c1Order = runSequentialCheck c1Outcomes :=
  ⟨rfl, List.reverse_perm c1Outcomes,
    c1_parallel_sequential_summary_agree c1Outcomes c1Order rfl
      (List.reverse_perm c1Outcomes)⟩

/-- C2: a check that raises is converted by the collection loop into a
failed `CheckResult` carrying the exception text, while every other check
still contributes its own result and no check is dropped. -/
theorem c2_exception_becomes_failed_result
    (checks : List (String × Except String CheckResult)) (i j : Nat)
    (nameI excI nameJ : String) (rJ : CheckResult)
    (hi : checks[i]? = some (nameI, Except.error excI))
    (hj : checks[j]? = some (nameJ, Except.ok rJ)) :
    (runChecksCollect checks).length = checks.length ∧
    (runChecksCollect checks)[i]? = some (errorCheckResult nameI excI) ∧
    (errorCheckResult nameI excI).success = false ∧
    (errorCheckResult nameI excI).errors = ["Check failed with exception: " ++ excI] ∧
    (runChecksCollect checks)[j]? = some rJ := by
  rw [runChecksCollect_eq_map]
  refine ⟨List.length_map _ _, ?_, rfl, rfl, ?_⟩
  · rw [List.getElem?_map, hi]; rfl
  · rw [List.getElem?_map, hj]; rfl

theorem c2_witness :
    c2Checks[1]? = some ("check_dependency_packages", Except.error "boom") ∧
    c2Checks[0]? =
      some ("check_homebrew_packages",
        Except.ok ((CheckResult.mk0 "📦 Homebrew Packages").add_success "ok")) ∧
    (runChecksCollect c2Checks).length = c2Checks.length ∧
    (runChecksCollect c2Checks)[1]? =
      some (errorCheckResult "check_dependency_packages" "boom") ∧
    (errorCheckResult "check_dependency_packages" "boom").success = false ∧
    (errorCheckResult "check_dependency_packages" "boom").errors =
      ["Check failed with exception: " ++ "boom"] ∧
    (runChecksCollect c2Checks)[0]? =
      some ((CheckResult.mk0 "📦 Homebrew Packages").add_success "ok") :=
  ⟨rfl, rfl,
    (c2_exception_becomes_failed_result c2Checks 1 0 "check_dependency_packages" "boom"
      "check_homebrew_packages" ((CheckResult.mk0 "📦 Homebrew Packages").add_success "ok")
      rfl rfl).1,
    (c2_exception_becomes_failed_result c2Checks 1 0 "check_dependency_packages" "boom"
      "check_homebrew_packages" ((CheckResult.mk0 "📦 Homebrew Packages").add_success "ok")
      rfl rfl).2.1,
    (c2_exception_becomes_failed_result c2Checks 1 0 "check_dependency_packages" "boom"
      "check_homebrew_packages" ((CheckResult.mk0 "📦 Homebrew Packages").add_success "ok")
      rfl rfl).2.2.1,
    (c2_exception_becomes_failed_result c2Checks 1 0 "check_dependency_packages" "boom"
      "check_homebrew_packages" ((CheckResult.mk0 "📦 Homebrew Packages").add_success "ok")
      rfl rfl).2.2.2.1,
    (c2_exception_becomes_failed_result c2Checks 1 0 "check_dependency_packages" "boom"
      "check_homebrew_packages" ((CheckResult.mk0 "📦 Homebrew Packages").add_success "ok")
      rfl rfl).2.2.2.2⟩

/-- C5: in `run_cleanup`, when the category list lacks `'all'` exactly
the named categories run (in the fixed order) and no others; with `'all'`
present, or with the argparse default, all seven run. -/
theorem c5_category_dispatch (cats catsAll : List String) (c : Category) (input : String)
    (hno : "all" ∉ cats) (hyes : "all" ∈ catsAll) :
    (c ∈ executedCategories cats ↔ categoryName c ∈ cats) ∧
    executedCategories catsAll = allCategories ∧
    executedCategories defaultCategories = allCategories ∧
    runCleanup true input cats = CleanupOutcome.performed (executedCategories cats) := by
  refine ⟨?_, ?_, by decide, by simp [runCleanup, confirmProceeds]⟩
  · have hall : c ∈ allCategories := by cases c <;> decide
    simp [executedCategories, hno, List.mem_filter, hall]
  · simp [executedCategories, hyes]

theorem c5_witness :
    "all" ∉ ["zsh", "git"] ∧ "all" ∈ ["all", "tmux"] ∧
    ((Category.git ∈ executedCategories ["zsh", "git"] ↔
        categoryName Category.git ∈ ["zsh", "git"]) ∧
      executedCategories ["all", "tmux"] = allCategories ∧
      executedCategories defaultCategories = allCategories ∧
      runCleanup true "YES" ["zsh", "git"] =
        CleanupOutcome.performed (executedCategories ["zsh", "git"])) :=
  ⟨by decide, by decide,
    c5_category_dispatch ["zsh", "git"] ["all", "tmux"] Category.git "YES"
      (by decide) (by decide)⟩

/-- C6 counterexample: entering `no` at the confirmation prompt cancels
`run_cleanup`, yet the process exits with code 0, not 1 as claimed. -/
theorem c6_counterexample :
    runCleanup false "no" ["all"] = CleanupOutcome.cancelled ∧
    cleanupScriptExitCode false "no" ["all"] = 0 := by
  constructor <;> rfl

/-- C6 (amended): the status checker exits 0 on success and 1 on failure,
and the cleanup script exits 1 on KeyboardInterrupt or an uncaught
exception; but a refused confirmation (any input other than `YES`) makes
`run_cleanup` return early, so the process exits 0, not 1. -/
theorem c6_amended_exit_codes (input : String) (cats : List String) (m : String)
    (success : Bool) (hin : input ≠ "YES") :
    runCleanup false input cats = CleanupOutcome.cancelled ∧
    cleanupScriptExitCode false input cats = 0 ∧
    cleanupMainExitCode PyTermination.keyboardInterrupt = 1 ∧
    cleanupMainExitCode (PyTermination.uncaughtException m) = 1 ∧
    (statusCheckerExitCode success = 0 ↔ success = true) := by
  have hbeq : (input == "YES") = false := beq_eq_false_iff_ne.mpr hin
  have hcancel : runCleanup false input cats = CleanupOutcome.cancelled := by
    simp [runCleanup, confirmProceeds, hbeq]
  refine ⟨hcancel, ?_, rfl, rfl, ?_⟩
  · simp [cleanupScriptExitCode, hcancel, cleanupMainExitCode]
  · cases success <;> simp [statusCheckerExitCode]

theorem c6_witness :
    "no" ≠ "YES" ∧
    (runCleanup false "no" ["zsh"] = CleanupOutcome.cancelled ∧
      cleanupScriptExitCode false "no" ["zsh"] = 0 ∧
      cleanupMainExitCode PyTermination.keyboardInterrupt = 1 ∧
      cleanupMainExitCode (PyTermination.uncaughtException "oops") = 1 ∧
      (statusCheckerExitCode false = 0 ↔ false = true)) :=
  ⟨by decide, c6_amended_exit_codes "no" ["zsh"] "oops" false (by decide)⟩

/-- C7 counterexample: in the installer's table loop an exception in
`create_symlink` reaches `self.fail`, which exits the process with code
1; the second table item is never attempted, contradicting the claim
that the script continues with the next item. -/
theorem c7_counterexample :
    installTableRun []
        [(["repo", "gitconfig"], ["home", ".gitconfig"], OpOutcome.raises "boom"),
         (["repo", "screenrc"], ["home", ".screenrc"], OpOutcome.ok)] =
      InstallRun.exited 1 [] 1 := rfl

/-- C7 (amended): the cleanup loop catches a raising removal, logs a
warning, and still attempts every remaining item; the installer loop
catches a raising `create_symlink`, logs it, and then exits with code 1,
aborting all remaining items. -/
theorem c7_amended_loop_behaviour :
    (∀ (fs : Fs) (items : List (FPath × OpOutcome)),
        (cleanupTableRun fs items).2.1 = items.length ∧
        (cleanupTableRun fs items).2.2 = items.countP (fun it => isRaise it.2)) ∧
    (∀ (fs : Fs) (s t : FPath) (m : String) (rest : List (FPath × FPath × OpOutcome)),
        installTableRun fs ((s, t, OpOutcome.raises m) :: rest) =
          InstallRun.exited 1 fs 1) := by
  constructor
  · intro fs items
    induction items generalizing fs with
    | nil => simp [cleanupTableRun]
    | cons it rest ih =>
      obtain ⟨p, o⟩ := it
      cases o with
      | ok =>
        have := ih (removeFileOrSymlink fs p).1
        simp [cleanupTableRun, this.1, this.2, isRaise, List.countP_cons]
      | raises m =>
        have := ih fs
        simp [cleanupTableRun, this.1, this.2, isRaise, List.countP_cons]
  · intro fs s t m rest
    rfl

/-- C8 counterexample: in an environment in which `brew list zsh`
completes with return code 1 (a failed invocation),
`check_dependency_packages` records a success `Clean` line for the
package and ends with no warning and no error line at all, so not every
failed subprocess invocation is surfaced as a warning or error line. -/
theorem c8_counterexample :
    runCommand (depEnvAllFail "brew list zsh") =
      some { returncode := 1, stdout := "" } ∧
    ({ returncode := 1, stdout := "" } : CompletedProcess).returncode ≠ 0 ∧
    (MsgType.success, "  • zsh - Clean") ∈ (checkDependencyPackages depEnvAllFail).messages ∧
    (checkDependencyPackages depEnvAllFail).warnings = [] ∧
    (checkDependencyPackages depEnvAllFail).errors = [] := by
  refine ⟨rfl, by decide, by decide, rfl, rfl⟩

/-- C8 (amended): `run_command` never raises — it returns the completed
process on a normal invocation and `None` when the subprocess machinery
raises; a failed `brew tap` in `check_local_taps` is surfaced as a
warning line, but a failed `brew list` probe in
`check_dependency_packages` is surfaced as a success `Clean` line, not
as a warning or error. -/
theorem c8_amended_failure_surfacing (cp : CompletedProcess) (m ct : String)
    (env : String → SubprocessBehavior) (fs : Fs)
    (henv : env "brew tap" = SubprocessBehavior.raises m) :
    runCommand (SubprocessBehavior.completes cp) = some cp ∧
    runCommand (SubprocessBehavior.raises m) = none ∧
    (checkLocalTaps ct env fs).warnings =
      ["Could not check taps status (brew tap failed)"] ∧
    (MsgType.success, "  • zsh - Clean") ∈ (checkDependencyPackages depEnvAllFail).messages ∧
    (checkDependencyPackages depEnvAllFail).warnings = [] ∧
    (checkDependencyPackages depEnvAllFail).errors = [] := by
  refine ⟨rfl, rfl, ?_, by decide, rfl, rfl⟩
  simp [checkLocalTaps, henv, runCommand, CheckResult.add_warning, CheckResult.mk0]

theorem c8_witness :
    (fun _ : String => SubprocessBehavior.raises "connection reset") "brew tap" =
      SubprocessBehavior.raises "connection reset" ∧
    (runCommand (SubprocessBehavior.completes { returncode := 0, stdout := "ok" }) =
        some { returncode := 0, stdout := "ok" } ∧
      runCommand (SubprocessBehavior.raises "connection reset") = none ∧
      (checkLocalTaps "installed"
          (fun _ : String => SubprocessBehavior.raises "connection reset") []).warnings =
        ["Could not check taps status (brew tap failed)"] ∧
      (MsgType.success, "  • zsh - Clean") ∈
        (checkDependencyPackages depEnvAllFail).messages ∧
      (checkDependencyPackages depEnvAllFail).warnings = [] ∧
      (checkDependencyPackages depEnvAllFail).errors = []) :=
  ⟨rfl, c8_amended_failure_surfacing { returncode := 0, stdout := "ok" }
    "connection reset" "installed"
    (fun _ : String => SubprocessBehavior.raises "connection reset") [] rfl⟩

theorem lookupFs_filter_none (fs : Fs) (p : FPath) (P : FPath × Node → Bool)
    (h : ∀ n, P (p, n) = false) : lookupFs (fs.filter P) p = none := by
  induction fs with
  | nil => rfl
  | cons e rest ih =>
    obtain ⟨q, n⟩ := e
    by_cases hq : q = p
    · subst hq
      simp [List.filter_cons, h n, ih]
    · cases hP : P (q, n) with
      | true => simp [List.filter_cons, hP, lookupFs, hq, ih]
      | false => simp [List.filter_cons, hP, ih]

theorem lookupFs_removeFileOrSymlink_self (fs : Fs) (p : FPath) :
    lookupFs (removeFileOrSymlink fs p).1 p = none := by
  unfold removeFileOrSymlink
  cases h : lookupFs fs p with
  | none => simpa [h]
  | some n =>
    cases n with
    | dir =>
      simp only [eraseTree]
      exact lookupFs_filter_none fs p _ (fun n => by simp)
    | file =>
      simp only [removeEntry]
      exact lookupFs_filter_none fs p _ (fun n => by simp)
    | symlink t =>
      simp only [removeEntry]
      exact lookupFs_filter_none fs p _ (fun n => by simp)

theorem removeFileOrSymlink_of_lookup_none (fs : Fs) (p : FPath)
    (h : lookupFs fs p = none) :
    removeFileOrSymlink fs p = (fs, CleanResult.alreadyClean) := by
  unfold removeFileOrSymlink
  rw [h]

/-- C3: `remove_file_or_symlink` is idempotent — running it twice leaves
the same end state as running it once, and the second run reports the
path as already clean (no error) because the first run removed the
entry. -/
theorem c3_cleanup_idempotent (fs : Fs) (p : FPath) :
    (removeFileOrSymlink (removeFileOrSymlink fs p).1 p).1 =
      (removeFileOrSymlink fs p).1 ∧
    (removeFileOrSymlink (removeFileOrSymlink fs p).1 p).2 =
      CleanResult.alreadyClean := by
  have h2 : removeFileOrSymlink (removeFileOrSymlink fs p).1 p =
      ((removeFileOrSymlink fs p).1, CleanResult.alreadyClean) :=
    removeFileOrSymlink_of_lookup_none _ p (lookupFs_removeFileOrSymlink_self fs p)
  exact ⟨by rw [h2], by rw [h2]⟩

/-! ### Filesystem lemmas for the installer proof -/

theorem prefix_comparable {α : Type} {l₁ l₂ l₃ : List α} (h₁ : l₁ <+: l₃)
    (h₂ : l₂ <+: l₃) : l₁ <+: l₂ ∨ l₂ <+: l₁ :=
  List.prefix_or_prefix_of_prefix h₁ h₂

theorem lookupFs_mem {fs : Fs} {p : FPath} {n : Node} (h : lookupFs fs p = some n) :
    (p, n) ∈ fs := by
  induction fs with
  | nil => cases h
  | cons e rest ih =>
    by_cases he : e.1 = p
    · rw [lookupFs, if_pos he] at h
      obtain ⟨q, m⟩ := e
      simp only at he
      subst he
      cases h
      exact List.mem_cons_self _ _
    · rw [lookupFs, if_neg he] at h
      exact List.mem_cons_of_mem _ (ih h)

theorem lookupFs_cons_self (fs : Fs) (p : FPath) (n : Node) :
    lookupFs ((p, n) :: fs) p = some n := by
  simp [lookupFs]

theorem lookupFs_cons_ne (fs : Fs) {p q : FPath} (n : Node) (h : q ≠ p) :
    lookupFs ((q, n) :: fs) p = lookupFs fs p := by
  simp [lookupFs, h]

theorem lookupFs_filter_of_true (fs : Fs) (p : FPath) (P : FPath × Node → Bool)
    (h : ∀ n, P (p, n) = true) : lookupFs (fs.filter P) p = lookupFs fs p := by
  induction fs with
  | nil => rfl
  | cons e rest ih =>
    obtain ⟨q, n⟩ := e
    by_cases hq : q = p
    · subst hq
      simp [List.filter_cons, h n, lookupFs, ih]
    · cases hP : P (q, n) with
      | true => simp [List.filter_cons, hP, lookupFs, hq, ih]
      | false => simp [List.filter_cons, hP, lookupFs, hq, ih]

theorem lookupFs_mkdirFold_of_isSome {p : FPath} :
    ∀ (l : List FPath) (fs : Fs), (lookupFs fs p).isSome →
      lookupFs (l.foldl
        (fun acc q => if (lookupFs acc q).isSome then acc else (q, Node.dir) :: acc) fs) p =
      lookupFs fs p := by
  intro l
  induction l with
  | nil => intro fs _; rfl
  | cons q rest ih =>
    intro fs hs
    by_cases hq : (lookupFs fs q).isSome
    · simp only [List.foldl, if_pos hq]
      exact ih fs hs
    · simp only [List.foldl, if_neg hq]
      have hne : q ≠ p := by
        intro hqp
        subst hqp
        exact hq hs
      have hs2 : (lookupFs ((q, Node.dir) :: fs) p).isSome := by
        rw [lookupFs_cons_ne fs Node.dir hne]
        exact hs
      rw [ih _ hs2, lookupFs_cons_ne fs Node.dir hne]

theorem lookupFs_mkdirFold_of_not_mem {p : FPath} :
    ∀ (l : List FPath) (fs : Fs), p ∉ l →
      lookupFs (l.foldl
        (fun acc q => if (lookupFs acc q).isSome then acc else (q, Node.dir) :: acc) fs) p =
      lookupFs fs p := by
  intro l
  induction l with
  | nil => intro fs _; rfl
  | cons q rest ih =>
    intro fs hmem
    have hq : q ≠ p := fun h => hmem (h ▸ List.mem_cons_self _ _)
    have hrest : p ∉ rest := fun h => hmem (List.mem_cons_of_mem _ h)
    by_cases hs : (lookupFs fs q).isSome
    · simp only [List.foldl, if_pos hs]
      exact ih fs hrest
    · simp only [List.foldl, if_neg hs]
      rw [ih _ hrest, lookupFs_cons_ne fs Node.dir hq]

theorem mem_mkdirFold {q : FPath} {n : Node} :
    ∀ (l : List FPath) (fs : Fs),
      (q, n) ∈ l.foldl
        (fun acc q => if (lookupFs acc q).isSome then acc else (q, Node.dir) :: acc) fs →
      (q, n) ∈ fs ∨ n = Node.dir := by
  intro l
  induction l with
  | nil => intro fs h; exact Or.inl h
  | cons x rest ih =>
    intro fs h
    by_cases hs : (lookupFs fs x).isSome
    · simp only [List.foldl, if_pos hs] at h
      exact ih fs h
    · simp only [List.foldl, if_neg hs] at h
      rcases ih _ h with h2 | h2
      · rcases List.mem_cons.mp h2 with h3 | h3
        · exact Or.inr (congrArg Prod.snd h3)
        · exact Or.inl h3
      · exact Or.inr h2

theorem lookupFs_removePath_skip (fs : Fs) {t q : FPath} (h : ¬ t <+: q) :
    lookupFs (removePath fs t) q = lookupFs fs q := by
  have hne : q ≠ t := by
    intro hq
    exact h (hq ▸ List.prefix_refl q)
  unfold removePath
  cases hl : lookupFs fs t with
  | none => rfl
  | some n =>
    cases n with
    | dir =>
      exact lookupFs_filter_of_true fs q _ (fun m => by simp [h])
    | file =>
      exact lookupFs_filter_of_true fs q _ (fun m => by simp [hne])
    | symlink s =>
      exact lookupFs_filter_of_true fs q _ (fun m => by simp [hne])

theorem mem_removePath {fs : Fs} {t q : FPath} {n : Node}
    (h : (q, n) ∈ removePath fs t) : (q, n) ∈ fs := by
  unfold removePath at h
  cases hl : lookupFs fs t with
  | none => rw [hl] at h; exact h
  | some m =>
    cases m with
    | dir => rw [hl] at h; exact List.mem_of_mem_filter h
    | file => rw [hl] at h; exact List.mem_of_mem_filter h
    | symlink s => rw [hl] at h; exact List.mem_of_mem_filter h

theorem lookupFs_createSymlink_self (fs : Fs) (s t : FPath) :
    lookupFs (createSymlinkF fs s t) t = some (Node.symlink s) :=
  lookupFs_cons_self _ _ _

theorem mem_createSymlink {fs : Fs} {s t q : FPath} {n : Node}
    (h : (q, n) ∈ createSymlinkF fs s t) :
    (q = t ∧ n = Node.symlink s) ∨ (q, n) ∈ fs ∨ n = Node.dir := by
  unfold createSymlinkF at h
  rcases List.mem_cons.mp h with h2 | h2
  · injection h2 with h3 h4
    exact Or.inl ⟨h3, h4⟩
  · rcases mem_mkdirFold (properPrefixes t) fs
      (by simpa [mkdirFold] using mem_removePath h2) with h3 | h3
    · exact Or.inr (Or.inl h3)
    · exact Or.inr (Or.inr h3)

theorem lookupFs_createSymlink_untouched (fs : Fs) (s : FPath) {home q : FPath}
    {a : List String} (hq1 : ¬ home <+: q) (hq2 : ¬ q <+: home) (ha : a ≠ []) :
    lookupFs (createSymlinkF fs s (home ++ a)) q = lookupFs fs q := by
  have hhlt : home <+: home ++ a := List.prefix_append home a
  have hqt : ¬ (home ++ a) <+: q := fun h => hq1 (hhlt.trans h)
  have hne : home ++ a ≠ q := fun h => hq1 (h ▸ hhlt)
  unfold createSymlinkF mkdirFold
  rw [lookupFs_cons_ne _ _ hne, lookupFs_removePath_skip _ hqt]
  apply lookupFs_mkdirFold_of_not_mem
  intro hmem
  obtain ⟨k, _, hq⟩ := List.mem_map.mp hmem
  have hpre : q <+: home ++ a := by
    rw [← hq]
    exact List.take_prefix _ _
  rcases prefix_comparable hpre hhlt with h3 | h3
  · exact hq2 h3
  · exact hq1 h3

theorem lookupFs_createSymlink_keep (fs : Fs) (s : FPath) {t q : FPath} {n : Node}
    (h : lookupFs fs q = some n) (hne : q ≠ t) (hpre : ¬ t <+: q) :
    lookupFs (createSymlinkF fs s t) q = some n := by
  unfold createSymlinkF
  rw [lookupFs_cons_ne _ _ (fun he => hne he.symm),
    lookupFs_removePath_skip _ hpre]
  have h2 : lookupFs (mkdirFold fs t) q = lookupFs fs q := by
    unfold mkdirFold
    exact lookupFs_mkdirFold_of_isSome _ _ (by rw [h]; rfl)
  rw [h2, h]

theorem linksOK_createSymlink {fs0 fs : Fs} {home : FPath} {s t : FPath}
    (h : LinksOK fs0 fs home) (ht : t ∈ allInstallTargets home) :
    LinksOK fs0 (createSymlinkF fs s t) home := by
  intro q n hmem hlink
  rcases mem_createSymlink hmem with ⟨hq, _⟩ | hmem2 | hn
  · exact Or.inr (hq ▸ ht)
  · exact h q n hmem2 hlink
  · rw [hn] at hlink
    simp [isLinkNode] at hlink

theorem presOK_createSymlink {fs0 fs : Fs} {home : FPath} {s : FPath} {a : List String}
    (h : PresOK fs0 fs home) (ha : a ≠ []) :
    PresOK fs0 (createSymlinkF fs s (home ++ a)) home := by
  intro q hq1 hq2
  rw [lookupFs_createSymlink_untouched fs s hq1 hq2 ha]
  exact h q hq1 hq2

/-! ### Resolution lemmas -/

theorem resolveGo_nil (fs : Fs) (fuel : Nat) (acc : FPath) :
    resolveGo fs fuel acc [] = acc := by
  unfold resolveGo
  rfl

theorem resolveGo_cons_eq (fs : Fs) (fuel : Nat) (acc : FPath) (c : String)
    (rs : FPath) :
    resolveGo fs fuel acc (c :: rs) =
      match lookupFs fs (acc ++ [c]) with
      | some (Node.symlink t) =>
        match fuel with
        | 0 => acc ++ c :: rs
        | f + 1 => resolveGo fs f [] (t ++ rs)
      | _ => resolveGo fs fuel (acc ++ [c]) rs := by
  conv_lhs => unfold resolveGo

theorem resolveGo_hop (fs : Fs) (f : Nat) (acc : FPath) (c : String) (rest : FPath)
    (t : FPath) (h : lookupFs fs (acc ++ [c]) = some (Node.symlink t)) :
    resolveGo fs (f + 1) acc (c :: rest) = resolveGo fs f [] (t ++ rest) := by
  rw [resolveGo_cons_eq, h]

theorem resolveGo_step_nolink (fs : Fs) (fuel : Nat) (acc : FPath) (c : String)
    (rest : FPath) (h : ∀ t, lookupFs fs (acc ++ [c]) ≠ some (Node.symlink t)) :
    resolveGo fs fuel acc (c :: rest) = resolveGo fs fuel (acc ++ [c]) rest := by
  rw [resolveGo_cons_eq]
  cases hl : lookupFs fs (acc ++ [c]) with
  | none => rfl
  | some n =>
    cases n with
    | file => rfl
    | dir => rfl
    | symlink t => exact absurd hl (h t)

theorem resolveGo_walk (fs : Fs) (fuel : Nat) :
    ∀ (walk acc rest : FPath),
      (∀ (pre : FPath) (c : String), pre ++ [c] <+: walk →
        ∀ t, lookupFs fs (acc ++ (pre ++ [c])) ≠ some (Node.symlink t)) →
      resolveGo fs fuel acc (walk ++ rest) = resolveGo fs fuel (acc ++ walk) rest := by
  intro walk
  induction walk with
  | nil => intro acc rest _; simp
  | cons c ws ih =>
    intro acc rest h
    have hc : ∀ t, lookupFs fs (acc ++ [c]) ≠ some (Node.symlink t) := by
      intro t
      have h2 : ([] : FPath) ++ [c] <+: c :: ws := by
        simp
      simpa using h [] c h2 t
    rw [List.cons_append, resolveGo_step_nolink fs fuel acc c (ws ++ rest) hc]
    have ih2 := ih (acc ++ [c]) rest (by
      intro pre c2 hp t
      have h2 : (c :: pre) ++ [c2] <+: c :: ws := by
        rw [List.cons_append]
        exact List.cons_prefix_cons.mpr ⟨rfl, hp⟩
      have h3 := h (c :: pre) c2 h2 t
      simpa [List.append_assoc] using h3)
    rw [ih2]
    congr 1
    simp

theorem resolveGo_clean (fs : Fs) (p : FPath) (h : NoLinkBelow fs p) (fuel : Nat) :
    resolveGo fs fuel [] p = p := by
  have hw := resolveGo_walk fs fuel p [] [] (by
    intro pre c hp t
    simpa using h (pre ++ [c]) hp t)
  simpa [resolveGo_nil] using hw

theorem targets_shape {home : FPath} {q : FPath} (h : q ∈ allInstallTargets home) :
    ∃ a, a ∈ targetSuffixes ∧ q = home ++ a ∧ a ≠ [] := by
  obtain ⟨a, ha, rfl⟩ := List.mem_map.mp h
  refine ⟨a, ha, rfl, ?_⟩
  intro hnil
  exact absurd (hnil ▸ ha) (by decide)

theorem noLinkBelow_home {fs0 fs : Fs} {home : FPath}
    (hL : LinksOK fs0 fs home)
    (hhome : ∀ p n, (p, n) ∈ fs0 → isLinkNode n = true → ¬ p <+: home) :
    NoLinkBelow fs home := by
  intro q hq t hlook
  have hmem := lookupFs_mem hlook
  rcases hL q _ hmem rfl with h0 | htgt
  · exact hhome q _ h0 rfl hq
  · obtain ⟨a, _, rfl, hne⟩ := targets_shape htgt
    have h1 : (home ++ a).length ≤ home.length := hq.length_le
    have h2 : 0 < a.length := List.length_pos.mpr hne
    rw [List.length_append] at h1
    omega

theorem noLinkBelow_cwd {fs0 fs : Fs} {home cwd : FPath} (r : List String)
    (hL : LinksOK fs0 fs home)
    (hsep1 : ¬ home <+: cwd) (hsep2 : ¬ cwd <+: home)
    (hcwd : ∀ p n, (p, n) ∈ fs0 → isLinkNode n = true → ¬ p <+: cwd ∧ ¬ cwd <+: p) :
    NoLinkBelow fs (cwd ++ r) := by
  intro q hq t hlook
  have hmem := lookupFs_mem hlook
  rcases hL q _ hmem rfl with h0 | htgt
  · obtain ⟨h1, h2⟩ := hcwd q _ h0 rfl
    rcases prefix_comparable hq (List.prefix_append cwd r) with h3 | h3
    · exact h1 h3
    · exact h2 h3
  · obtain ⟨a, _, rfl, _⟩ := targets_shape htgt
    have hhq : home <+: cwd ++ r := (List.prefix_append home a).trans hq
    rcases prefix_comparable hhq (List.prefix_append cwd r) with h3 | h3
    · exact hsep1 h3
    · exact hsep2 h3

theorem noLinkBelow_sshdir {fs0 fs : Fs} {home : FPath}
    (hL : LinksOK fs0 fs home)
    (hbelow : NoLinkBelow fs home)
    (hssh : ∀ n, (home ++ [".ssh"], n) ∈ fs0 → isLinkNode n = false) :
    NoLinkBelow fs (home ++ [".ssh"]) := by
  intro q hq t hlook
  rcases List.prefix_concat_iff.mp hq with heq | hpre
  · subst heq
    have hmem := lookupFs_mem hlook
    rcases hL _ _ hmem rfl with h0 | htgt
    · have := hssh _ h0
      simp [isLinkNode] at this
    · obtain ⟨a, haT, heq2, _⟩ := targets_shape htgt
      have ha2 : [".ssh"] = a := List.append_cancel_left heq2
      rw [← ha2] at haT
      exact absurd haT (by decide)
  · exact hbelow q hpre t hlook

theorem existsResolve_of_noLink {fs : Fs} {p : FPath} (h : NoLinkBelow fs p)
    (hl : (lookupFs fs p).isSome) : existsResolve fs p = true := by
  unfold existsResolve resolvePath
  rw [resolveGo_clean fs p h]
  exact hl

theorem checkEntryStatus_correct (fs : Fs) (cwd par : FPath) (c : String)
    (r : List String) (tgt : FPath)
    (hpar : NoLinkBelow fs par)
    (hlink : lookupFs fs (par ++ [c]) = some (Node.symlink tgt))
    (htgt : ∀ f, resolveGo fs (f + 1) [] tgt = cwd ++ r)
    (hnode : (lookupFs fs (cwd ++ r)).isSome) :
    checkEntryStatus fs cwd (par ++ [c]) r = LinkStatus.correctlyLinked := by
  have hwalkcond : ∀ (pre : FPath) (c2 : String), pre ++ [c2] <+: par →
      ∀ t, lookupFs fs (([] : FPath) ++ (pre ++ [c2])) ≠ some (Node.symlink t) := by
    intro pre c2 hp t
    simpa using hpar (pre ++ [c2]) hp t
  have hres : resolvePath fs (par ++ [c]) = cwd ++ r := by
    unfold resolvePath
    have hlen : fs.length + (par ++ [c]).length + 1 = (fs.length + par.length + 1) + 1 := by
      simp [List.length_append]
      omega
    rw [hlen]
    have hw := resolveGo_walk fs ((fs.length + par.length + 1) + 1) par [] [c] hwalkcond
    simp only [List.nil_append] at hw
    rw [hw, resolveGo_hop fs (fs.length + par.length + 1) par c [] tgt hlink,
      List.append_nil]
    exact htgt _
  have hexists : existsResolve fs (par ++ [c]) = true := by
    unfold existsResolve
    rw [hres]
    exact hnode
  have hlast : (par ++ [c]).getLast? = some c := by simp
  have hdrop : (par ++ [c]).dropLast = par := by simp
  have hparres : resolvePath fs par = par := by
    unfold resolvePath
    exact resolveGo_clean fs par hpar _
  have hsym : isSymlinkF fs (par ++ [c]) = true := by
    simp only [isSymlinkF, hlast, hdrop, hparres, hlink]
  simp [checkEntryStatus, hexists, hsym, hres]

theorem target_ne {home : FPath} {a b : List String} (hab : b ≠ a) :
    home ++ b ≠ home ++ a :=
  fun h => hab (List.append_cancel_left h)

theorem target_prefix_free {home : FPath} {a b : List String} (hab : ¬ b <+: a) :
    ¬ (home ++ b) <+: (home ++ a) :=
  fun h => hab ((List.prefix_append_right_inj home).mp h)

theorem lookupFs_createSymlink_target_keep {fs : Fs} {home s : FPath}
    {a b : List String} {n : Node} (hab : b ≠ a) (hpre : ¬ b <+: a)
    (h : lookupFs fs (home ++ a) = some n) :
    lookupFs (createSymlinkF fs s (home ++ b)) (home ++ a) = some n :=
  lookupFs_createSymlink_keep fs s h (fun h2 => hab (List.append_cancel_left h2).symm)
    (target_prefix_free hpre)

theorem mem_properPrefixes {p q : FPath} (hq : q ∈ properPrefixes p) :
    q <+: p ∧ q.length < p.length := by
  obtain ⟨k, hk, rfl⟩ := List.mem_map.mp hq
  have hk2 : k < p.length - 1 := List.mem_range.mp hk
  refine ⟨List.take_prefix _ _, ?_⟩
  rw [List.length_take]
  omega

theorem ancOK_single {fs : Fs} {home : FPath} (hd : DirsOK fs home) (c : String) :
    ∀ q ∈ properPrefixes (home ++ [c]),
      lookupFs fs q = none ∨ lookupFs fs q = some Node.dir := by
  intro q hq
  obtain ⟨hpre, hlen⟩ := mem_properPrefixes hq
  rcases prefix_comparable hpre (List.prefix_append home [c]) with h | h
  · exact hd.1 q h
  · obtain ⟨b, rfl⟩ := h
    have hblen : b.length < 1 := by
      rw [List.length_append, List.length_append] at hlen
      simp only [List.length_cons, List.length_nil] at hlen
      omega
    have hb0 : b = [] := List.eq_nil_of_length_eq_zero (by omega)
    subst hb0
    rw [List.append_nil]
    exact hd.1 home (List.prefix_refl home)

theorem ancOK_sshrc {fs : Fs} {home : FPath} (hd : DirsOK fs home) :
    ∀ q ∈ properPrefixes (home ++ [".ssh", "rc"]),
      lookupFs fs q = none ∨ lookupFs fs q = some Node.dir := by
  intro q hq
  obtain ⟨hpre, hlen⟩ := mem_properPrefixes hq
  rcases prefix_comparable hpre (List.prefix_append home [".ssh", "rc"]) with h | h
  · exact hd.1 q h
  · obtain ⟨b, rfl⟩ := h
    have hb : b <+: [".ssh", "rc"] := (List.prefix_append_right_inj home).mp hpre
    have hblen : b.length < 2 := by
      rw [List.length_append, List.length_append] at hlen
      simp only [List.length_cons, List.length_nil] at hlen
      omega
    cases b with
    | nil =>
      rw [List.append_nil]
      exact hd.1 home (List.prefix_refl home)
    | cons x xs =>
      cases xs with
      | nil =>
        have hx : x = ".ssh" := (List.cons_prefix_cons.mp hb).1
        subst hx
        exact hd.2
      | cons y ys =>
        exfalso
        simp only [List.length_cons] at hblen
        omega

theorem lookupFs_mkdirFold_cases (q : FPath) :
    ∀ (l : List FPath) (fs : Fs),
      lookupFs (l.foldl
        (fun acc x => if (lookupFs acc x).isSome then acc else (x, Node.dir) :: acc) fs) q =
        lookupFs fs q ∨
      lookupFs (l.foldl
        (fun acc x => if (lookupFs acc x).isSome then acc else (x, Node.dir) :: acc) fs) q =
        some Node.dir := by
  intro l
  induction l with
  | nil => intro fs; exact Or.inl rfl
  | cons x rest ih =>
    intro fs
    by_cases hs : (lookupFs fs x).isSome
    · simp only [List.foldl, if_pos hs]
      exact ih fs
    · simp only [List.foldl, if_neg hs]
      rcases ih ((x, Node.dir) :: fs) with h | h
      · by_cases hx : x = q
        · subst hx
          rw [h, lookupFs_cons_self]
          exact Or.inr rfl
        · rw [h, lookupFs_cons_ne _ _ hx]
          exact Or.inl rfl
      · exact Or.inr h

theorem mkdirParentsGo_ok :
    ∀ (l : List FPath) (fs : Fs),
      (∀ q ∈ l, lookupFs fs q = none ∨ lookupFs fs q = some Node.dir) →
      mkdirParentsGo fs l = some (l.foldl
        (fun acc x => if (lookupFs acc x).isSome then acc else (x, Node.dir) :: acc) fs) := by
  intro l
  induction l with
  | nil => intro fs _; rfl
  | cons x rest ih =>
    intro fs h
    rcases h x (List.mem_cons_self _ _) with hx | hx
    · have hs : ¬ (lookupFs fs x).isSome = true := by
        rw [hx]
        simp
      simp only [mkdirParentsGo, hx, List.foldl, if_neg hs]
      apply ih
      intro q hq
      by_cases hxq : x = q
      · subst hxq
        exact Or.inr (lookupFs_cons_self _ _ _)
      · rw [lookupFs_cons_ne _ _ hxq]
        exact h q (List.mem_cons_of_mem _ hq)
    · have hs : (lookupFs fs x).isSome = true := by
        rw [hx]
        rfl
      simp only [mkdirParentsGo, hx, List.foldl, if_pos hs]
      exact ih fs (fun q hq => h q (List.mem_cons_of_mem _ hq))

theorem mkdirParents_ok {fs : Fs} {target : FPath}
    (h : ∀ q ∈ properPrefixes target,
      lookupFs fs q = none ∨ lookupFs fs q = some Node.dir) :
    mkdirParents fs target = some (mkdirFold fs target) := by
  unfold mkdirParents mkdirFold
  exact mkdirParentsGo_ok (properPrefixes target) fs h

theorem createSymlink_eq {fs : Fs} {target : FPath} (source : FPath)
    (h : ∀ q ∈ properPrefixes target,
      lookupFs fs q = none ∨ lookupFs fs q = some Node.dir) :
    createSymlink fs source target = some (createSymlinkF fs source target) := by
  unfold createSymlink createSymlinkF
  rw [mkdirParents_ok h]

theorem dirsOK_createSymlinkF {fs : Fs} {home : FPath} {s : FPath} {a : List String}
    (hd : DirsOK fs home) (haT : a ∈ targetSuffixes) :
    DirsOK (createSymlinkF fs s (home ++ a)) home := by
  have hane : a ≠ [] := by
    intro h
    exact absurd (h ▸ haT) (by decide)
  have halen : 0 < a.length := List.length_pos.mpr hane
  constructor
  · intro q hq
    have hqlen : q.length ≤ home.length := hq.length_le
    have hne : home ++ a ≠ q := by
      intro h
      have h2 : (home ++ a).length = q.length := by rw [h]
      rw [List.length_append] at h2
      omega
    have hnpre : ¬ (home ++ a) <+: q := by
      intro h
      have h2 := h.length_le
      rw [List.length_append] at h2
      omega
    unfold createSymlinkF mkdirFold
    rw [lookupFs_cons_ne _ _ hne, lookupFs_removePath_skip _ hnpre]
    rcases lookupFs_mkdirFold_cases q (properPrefixes (home ++ a)) fs with h2 | h2
    · rw [h2]
      exact hd.1 q hq
    · rw [h2]
      exact Or.inr rfl
  · have hne : home ++ a ≠ home ++ [".ssh"] := by
      intro h
      have h2 : a = [".ssh"] := List.append_cancel_left h
      rw [h2] at haT
      exact absurd haT (by decide)
    have hnpre : ¬ (home ++ a) <+: home ++ [".ssh"] := by
      intro h
      have hb : a <+: [".ssh"] := (List.prefix_append_right_inj home).mp h
      have hall : ∀ b ∈ targetSuffixes, ¬ b <+: [".ssh"] := by decide
      exact hall a haT hb
    unfold createSymlinkF mkdirFold
    rw [lookupFs_cons_ne _ _ hne, lookupFs_removePath_skip _ hnpre]
    rcases lookupFs_mkdirFold_cases (home ++ [".ssh"]) (properPrefixes (home ++ a)) fs
      with h2 | h2
    · rw [h2]
      exact hd.2
    · rw [h2]
      exact Or.inr rfl

theorem installList_nil (fs : Fs) : installList fs [] = some fs := rfl

theorem installList_cons {fs fs1 : Fs} {e : FPath × FPath} {rest : List (FPath × FPath)}
    (h : installEntry fs e = some fs1) :
    installList fs (e :: rest) = installList fs1 rest := by
  simp only [installList, h]

theorem install_step {fs0 fs : Fs} {home cwd : FPath}
    (hsep1 : ¬ home <+: cwd) (hsep2 : ¬ cwd <+: home)
    (Hcwd : ∀ p n, (p, n) ∈ fs0 → isLinkNode n = true → ¬ p <+: cwd ∧ ¬ cwd <+: p)
    (hL : LinksOK fs0 fs home) (hP : PresOK fs0 fs home) (hD : DirsOK fs home)
    (r a : List String)
    (hr : (lookupFs fs0 (cwd ++ r)).isSome)
    (haT : a ∈ targetSuffixes) (hane : a ≠ [])
    (hanc : ∀ q ∈ properPrefixes (home ++ a),
      lookupFs fs q = none ∨ lookupFs fs q = some Node.dir) :
    installEntry fs (cwd ++ r, home ++ a) =
      some (createSymlinkF fs (cwd ++ r) (home ++ a)) ∧
    LinksOK fs0 (createSymlinkF fs (cwd ++ r) (home ++ a)) home ∧
    PresOK fs0 (createSymlinkF fs (cwd ++ r) (home ++ a)) home ∧
    DirsOK (createSymlinkF fs (cwd ++ r) (home ++ a)) home := by
  have hNL : NoLinkBelow fs (cwd ++ r) := noLinkBelow_cwd r hL hsep1 hsep2 Hcwd
  have hq1 : ¬ home <+: cwd ++ r := by
    intro h
    rcases prefix_comparable h (List.prefix_append cwd r) with h2 | h2
    · exact hsep1 h2
    · exact hsep2 h2
  have hq2 : ¬ (cwd ++ r) <+: home := by
    intro h
    exact hsep2 ((List.prefix_append cwd r).trans h)
  have hguard : existsResolve fs (cwd ++ r) = true :=
    existsResolve_of_noLink hNL (by rw [hP (cwd ++ r) hq1 hq2]; exact hr)
  refine ⟨?_, linksOK_createSymlink hL (List.mem_map.mpr ⟨a, haT, rfl⟩),
    presOK_createSymlink hP hane, dirsOK_createSymlinkF hD haT⟩
  have hbranch : installEntry fs (cwd ++ r, home ++ a) =
      createSymlink fs (cwd ++ r) (home ++ a) := by
    simp [installEntry, hguard]
  rw [hbranch]
  exact createSymlink_eq (cwd ++ r) hanc

theorem resolve_tmux_conf {fs0 fs : Fs} {home cwd : FPath}
    (hL : LinksOK fs0 fs home)
    (Hhome : ∀ p n, (p, n) ∈ fs0 → isLinkNode n = true → ¬ p <+: home)
    (hsep1 : ¬ home <+: cwd) (hsep2 : ¬ cwd <+: home)
    (Hcwd : ∀ p n, (p, n) ∈ fs0 → isLinkNode n = true → ¬ p <+: cwd ∧ ¬ cwd <+: p)
    (hlink : lookupFs fs (home ++ [".tmux"]) = some (Node.symlink (cwd ++ ["tmux"]))) :
    ∀ f, resolveGo fs (f + 1) [] (home ++ [".tmux", "tmux.conf"]) =
      cwd ++ ["tmux", "tmux.conf"] := by
  intro f
  have hNLh : NoLinkBelow fs home := noLinkBelow_home hL Hhome
  have hw := resolveGo_walk fs (f + 1) home [] [".tmux", "tmux.conf"] (by
    intro pre c2 hp t
    simpa using hNLh (pre ++ [c2]) hp t)
  simp only [List.nil_append] at hw
  rw [hw, resolveGo_hop fs f home ".tmux" ["tmux.conf"] (cwd ++ ["tmux"]) hlink]
  have hassoc : (cwd ++ ["tmux"]) ++ ["tmux.conf"] = cwd ++ ["tmux", "tmux.conf"] := by
    simp
  rw [hassoc]
  exact resolveGo_clean fs _ (noLinkBelow_cwd ["tmux", "tmux.conf"] hL hsep1 hsep2 Hcwd) _

/-- C4: starting from any filesystem in which the repository sources
exist, the repository and the home-managed area are prefix-separated,
the prefixes of `home` and `~/.ssh` are absent or directories (so the
installer's `mkdir` calls cannot raise), and no pre-existing symlink
sits on the repository paths, `install_dotfiles` completes (it does not
reach `self.fail`) and leaves every managed home path a symlink
resolving exactly to the repository-relative target that
`check_dotfiles_status` verifies, replacing whatever was there. -/
theorem c4_install_produces_checked_symlinks
    (fs0 : Fs) (home cwd : FPath) (homePath : FPath) (repoRel : List String)
    (hsep1 : ¬ home <+: cwd) (hsep2 : ¬ cwd <+: home)
    (hhome : fs0.all (fun e => !decide (e.1 <+: home) || decide (e.2 = Node.dir)) = true)
    (hcwd : fs0.all
      (fun e => !isLinkNode e.2 || (!decide (e.1 <+: cwd) && !decide (cwd <+: e.1))) = true)
    (hssh : fs0.all
      (fun e => !decide (e.1 = home ++ [".ssh"]) || decide (e.2 = Node.dir)) = true)
    (hsrc : repoSources.all (fun r => (lookupFs fs0 (cwd ++ r)).isSome) = true)
    (hentry : (homePath, repoRel) ∈ managedDotfiles home ++ managedDirectories home) :
    ∃ fsF, installDotfiles cwd home fs0 = some fsF ∧
      checkEntryStatus fsF cwd homePath repoRel = LinkStatus.correctlyLinked := by
  have Hdir : ∀ p n, (p, n) ∈ fs0 → p <+: home → n = Node.dir := by
    intro p n hmem hpre
    have h2 := List.all_eq_true.mp hhome ⟨p, n⟩ hmem
    simpa [hpre] using h2
  have Hhome : ∀ p n, (p, n) ∈ fs0 → isLinkNode n = true → ¬ p <+: home := by
    intro p n hmem hlink hpre
    rw [Hdir p n hmem hpre] at hlink
    simp [isLinkNode] at hlink
  have Hcwd : ∀ p n, (p, n) ∈ fs0 → isLinkNode n = true → ¬ p <+: cwd ∧ ¬ cwd <+: p := by
    intro p n hmem hlink
    have h2 := List.all_eq_true.mp hcwd ⟨p, n⟩ hmem
    simpa [hlink] using h2
  have Hsshdir : ∀ n, (home ++ [".ssh"], n) ∈ fs0 → n = Node.dir := by
    intro n hmem
    have h2 := List.all_eq_true.mp hssh ⟨home ++ [".ssh"], n⟩ hmem
    simpa using h2
  have Hssh : ∀ n, (home ++ [".ssh"], n) ∈ fs0 → isLinkNode n = false := by
    intro n hmem
    rw [Hsshdir n hmem]
    rfl
  have Hsrc : ∀ r ∈ repoSources, (lookupFs fs0 (cwd ++ r)).isSome = true := by
    intro r hr
    exact List.all_eq_true.mp hsrc r hr
  have D0 : DirsOK fs0 home := by
    constructor
    · intro q hq
      cases hl : lookupFs fs0 q with
      | none => exact Or.inl rfl
      | some n =>
        have hn := Hdir q n (lookupFs_mem hl) hq
        exact Or.inr (congrArg some hn)
    · cases hl : lookupFs fs0 (home ++ [".ssh"]) with
      | none => exact Or.inl rfl
      | some n =>
        have hn := Hsshdir n (lookupFs_mem hl)
        exact Or.inr (congrArg some hn)
  have base_L : LinksOK fs0 fs0 home := fun _ _ hm _ => Or.inl hm
  have base_P : PresOK fs0 fs0 home := fun _ _ _ => rfl
  -- the seven table entries, in order
  have s1 := install_step hsep1 hsep2 Hcwd base_L base_P D0 ["gitconfig"] [".gitconfig"]
    (Hsrc _ (by decide)) (by decide) (by decide) (ancOK_single D0 ".gitconfig")
  set f1 := createSymlinkF fs0 (cwd ++ ["gitconfig"]) (home ++ [".gitconfig"]) with hf1
  have s2 := install_step hsep1 hsep2 Hcwd s1.2.1 s1.2.2.1 s1.2.2.2
    ["screenrc"] [".screenrc"]
    (Hsrc _ (by decide)) (by decide) (by decide) (ancOK_single s1.2.2.2 ".screenrc")
  set f2 := createSymlinkF f1 (cwd ++ ["screenrc"]) (home ++ [".screenrc"]) with hf2
  have s3 := install_step hsep1 hsep2 Hcwd s2.2.1 s2.2.2.1 s2.2.2.2
    ["sshrc"] [".ssh", "rc"]
    (Hsrc _ (by decide)) (by decide) (by decide) (ancOK_sshrc s2.2.2.2)
  set f3 := createSymlinkF f2 (cwd ++ ["sshrc"]) (home ++ [".ssh", "rc"]) with hf3
  have s4 := install_step hsep1 hsep2 Hcwd s3.2.1 s3.2.2.1 s3.2.2.2
    ["zsh", "zshrc"] [".zshrc"]
    (Hsrc _ (by decide)) (by decide) (by decide) (ancOK_single s3.2.2.2 ".zshrc")
  set f4 := createSymlinkF f3 (cwd ++ ["zsh", "zshrc"]) (home ++ [".zshrc"]) with hf4
  have s5 := install_step hsep1 hsep2 Hcwd s4.2.1 s4.2.2.1 s4.2.2.2
    ["zsh", "zplug"] [".zplug"]
    (Hsrc _ (by decide)) (by decide) (by decide) (ancOK_single s4.2.2.2 ".zplug")
  set f5 := createSymlinkF f4 (cwd ++ ["zsh", "zplug"]) (home ++ [".zplug"]) with hf5
  have s6 := install_step hsep1 hsep2 Hcwd s5.2.1 s5.2.2.1 s5.2.2.2
    ["tmux"] [".tmux"]
    (Hsrc _ (by decide)) (by decide) (by decide) (ancOK_single s5.2.2.2 ".tmux")
  set f6 := createSymlinkF f5 (cwd ++ ["tmux"]) (home ++ [".tmux"]) with hf6
  have s7 := install_step hsep1 hsep2 Hcwd s6.2.1 s6.2.2.1 s6.2.2.2
    ["tools"] [".tools"]
    (Hsrc _ (by decide)) (by decide) (by decide) (ancOK_single s6.2.2.2 ".tools")
  set f7 := createSymlinkF f6 (cwd ++ ["tools"]) (home ++ [".tools"]) with hf7
  have L7 : LinksOK fs0 f7 home := s7.2.1
  have P7 : PresOK fs0 f7 home := s7.2.2.1
  have D7 : DirsOK f7 home := s7.2.2.2
  -- the table loop completes and produces the seventh state
  have hlist : installList fs0 (dotfilesTable cwd home ++ directoriesTable cwd home) =
      some f7 := by
    have h0 : dotfilesTable cwd home ++ directoriesTable cwd home =
      [(cwd ++ ["gitconfig"], home ++ [".gitconfig"]),
       (cwd ++ ["screenrc"], home ++ [".screenrc"]),
       (cwd ++ ["sshrc"], home ++ [".ssh", "rc"]),
       (cwd ++ ["zsh", "zshrc"], home ++ [".zshrc"]),
       (cwd ++ ["zsh", "zplug"], home ++ [".zplug"]),
       (cwd ++ ["tmux"], home ++ [".tmux"]),
       (cwd ++ ["tools"], home ++ [".tools"])] := rfl
    rw [h0, installList_cons s1.1, installList_cons s2.1, installList_cons s3.1,
      installList_cons s4.1, installList_cons s5.1, installList_cons s6.1,
      installList_cons s7.1, installList_nil]
  -- the link at ~/.tmux survives the seventh step
  have l6_7 : lookupFs f7 (home ++ [".tmux"]) = some (Node.symlink (cwd ++ ["tmux"])) := by
    rw [hf7]
    exact lookupFs_createSymlink_target_keep (by decide) (by decide)
      (by rw [hf6]; exact lookupFs_createSymlink_self _ _ _)
  -- the source ~/.tmux/tmux.conf now exists (through the ~/.tmux link)
  have hres7 := resolve_tmux_conf L7 Hhome hsep1 hsep2 Hcwd l6_7
  have hq1 : ∀ r : List String, ¬ home <+: cwd ++ r := by
    intro r h
    rcases prefix_comparable h (List.prefix_append cwd r) with h2 | h2
    · exact hsep1 h2
    · exact hsep2 h2
  have hq2 : ∀ r : List String, ¬ (cwd ++ r) <+: home := by
    intro r h
    exact hsep2 ((List.prefix_append cwd r).trans h)
  have hguard8 : existsResolve f7 (home ++ [".tmux", "tmux.conf"]) = true := by
    unfold existsResolve resolvePath
    rw [hres7 _, P7 _ (hq1 _) (hq2 _)]
    exact Hsrc _ (by decide)
  set f8 := createSymlinkF f7 (home ++ [".tmux", "tmux.conf"]) (home ++ [".tmux.conf"])
    with hf8
  have hcs8 : createSymlink f7 (home ++ [".tmux", "tmux.conf"]) (home ++ [".tmux.conf"]) =
      some f8 := by
    rw [hf8]
    exact createSymlink_eq _ (ancOK_single D7 ".tmux.conf")
  have hID : installDotfiles cwd home fs0 = some f8 := by
    unfold installDotfiles
    rw [hlist]
    show (if existsResolve f7 (home ++ [".tmux", "tmux.conf"]) then
        createSymlink f7 (home ++ [".tmux", "tmux.conf"]) (home ++ [".tmux.conf"])
      else some f7) = some f8
    rw [if_pos hguard8]
    exact hcs8
  have L8 : LinksOK fs0 f8 home := by
    rw [hf8]
    exact linksOK_createSymlink L7 (List.mem_map.mpr ⟨[".tmux.conf"], by decide, rfl⟩)
  have P8 : PresOK fs0 f8 home := by
    rw [hf8]
    exact presOK_createSymlink P7 (by decide)
  have hNLhome8 : NoLinkBelow f8 home := noLinkBelow_home L8 Hhome
  have hNLssh8 : NoLinkBelow f8 (home ++ [".ssh"]) := noLinkBelow_sshdir L8 hNLhome8 Hssh
  have hNLcwd8 : ∀ r : List String, NoLinkBelow f8 (cwd ++ r) := fun r =>
    noLinkBelow_cwd r L8 hsep1 hsep2 Hcwd
  have htgtD : ∀ (r : List String) (f : Nat),
      resolveGo f8 (f + 1) [] (cwd ++ r) = cwd ++ r := fun r f =>
    resolveGo_clean f8 _ (hNLcwd8 r) _
  have hnode : ∀ r ∈ repoSources, (lookupFs f8 (cwd ++ r)).isSome = true := by
    intro r hr
    rw [P8 _ (hq1 _) (hq2 _)]
    exact Hsrc _ hr
  -- surviving links for each managed path
  have l1 : lookupFs f8 (home ++ [".gitconfig"]) =
      some (Node.symlink (cwd ++ ["gitconfig"])) := by
    rw [hf8]
    refine lookupFs_createSymlink_target_keep (by decide) (by decide) ?_
    rw [hf7]
    refine lookupFs_createSymlink_target_keep (by decide) (by decide) ?_
    rw [hf6]
    refine lookupFs_createSymlink_target_keep (by decide) (by decide) ?_
    rw [hf5]
    refine lookupFs_createSymlink_target_keep (by decide) (by decide) ?_
    rw [hf4]
    refine lookupFs_createSymlink_target_keep (by decide) (by decide) ?_
    rw [hf3]
    refine lookupFs_createSymlink_target_keep (by decide) (by decide) ?_
    rw [hf2]
    refine lookupFs_createSymlink_target_keep (by decide) (by decide) ?_
    rw [hf1]
    exact lookupFs_createSymlink_self _ _ _
  have l2 : lookupFs f8 (home ++ [".screenrc"]) =
      some (Node.symlink (cwd ++ ["screenrc"])) := by
    rw [hf8]
    refine lookupFs_createSymlink_target_keep (by decide) (by decide) ?_
    rw [hf7]
    refine lookupFs_createSymlink_target_keep (by decide) (by decide) ?_
    rw [hf6]
    refine lookupFs_createSymlink_target_keep (by decide) (by decide) ?_
    rw [hf5]
    refine lookupFs_createSymlink_target_keep (by decide) (by decide) ?_
    rw [hf4]
    refine lookupFs_createSymlink_target_keep (by decide) (by decide) ?_
    rw [hf3]
    refine lookupFs_createSymlink_target_keep (by decide) (by decide) ?_
    rw [hf2]
    exact lookupFs_createSymlink_self _ _ _
  have l3 : lookupFs f8 (home ++ [".ssh", "rc"]) =
      some (Node.symlink (cwd ++ ["sshrc"])) := by
    rw [hf8]
    refine lookupFs_createSymlink_target_keep (by decide) (by decide) ?_
    rw [hf7]
    refine lookupFs_createSymlink_target_keep (by decide) (by decide) ?_
    rw [hf6]
    refine lookupFs_createSymlink_target_keep (by decide) (by decide) ?_
    rw [hf5]
    refine lookupFs_createSymlink_target_keep (by decide) (by decide) ?_
    rw [hf4]
    refine lookupFs_createSymlink_target_keep (by decide) (by decide) ?_
    rw [hf3]
    exact lookupFs_createSymlink_self _ _ _
  have l4 : lookupFs f8 (home ++ [".zshrc"]) =
      some (Node.symlink (cwd ++ ["zsh", "zshrc"])) := by
    rw [hf8]
    refine lookupFs_createSymlink_target_keep (by decide) (by decide) ?_
    rw [hf7]
    refine lookupFs_createSymlink_target_keep (by decide) (by decide) ?_
    rw [hf6]
    refine lookupFs_createSymlink_target_keep (by decide) (by decide) ?_
    rw [hf5]
    refine lookupFs_createSymlink_target_keep (by decide) (by decide) ?_
    rw [hf4]
    exact lookupFs_createSymlink_self _ _ _
  have l5 : lookupFs f8 (home ++ [".zplug"]) =
      some (Node.symlink (cwd ++ ["zsh", "zplug"])) := by
    rw [hf8]
    refine lookupFs_createSymlink_target_keep (by decide) (by decide) ?_
    rw [hf7]
    refine lookupFs_createSymlink_target_keep (by decide) (by decide) ?_
    rw [hf6]
    refine lookupFs_createSymlink_target_keep (by decide) (by decide) ?_
    rw [hf5]
    exact lookupFs_createSymlink_self _ _ _
  have l6 : lookupFs f8 (home ++ [".tmux"]) =
      some (Node.symlink (cwd ++ ["tmux"])) := by
    rw [hf8]
    exact lookupFs_createSymlink_target_keep (by decide) (by decide) l6_7
  have l7 : lookupFs f8 (home ++ [".tools"]) =
      some (Node.symlink (cwd ++ ["tools"])) := by
    rw [hf8]
    refine lookupFs_createSymlink_target_keep (by decide) (by decide) ?_
    rw [hf7]
    exact lookupFs_createSymlink_self _ _ _
  have l8 : lookupFs f8 (home ++ [".tmux.conf"]) =
      some (Node.symlink (home ++ [".tmux", "tmux.conf"])) := by
    rw [hf8]
    exact lookupFs_createSymlink_self _ _ _
  have hres8 := resolve_tmux_conf L8 Hhome hsep1 hsep2 Hcwd l6
  refine ⟨f8, hID, ?_⟩
  simp only [managedDotfiles, managedDirectories, List.cons_append, List.nil_append,
    List.mem_cons, List.not_mem_nil, or_false, Prod.mk.injEq] at hentry
  rcases hentry with h | h | h | h | h | h | h | h
  · obtain ⟨rfl, rfl⟩ := h
    exact checkEntryStatus_correct f8 cwd home ".zshrc" ["zsh", "zshrc"]
      (cwd ++ ["zsh", "zshrc"]) hNLhome8 l4 (htgtD _) (hnode _ (by decide))
  · obtain ⟨rfl, rfl⟩ := h
    exact checkEntryStatus_correct f8 cwd home ".gitconfig" ["gitconfig"]
      (cwd ++ ["gitconfig"]) hNLhome8 l1 (htgtD _) (hnode _ (by decide))
  · obtain ⟨rfl, rfl⟩ := h
    exact checkEntryStatus_correct f8 cwd home ".tmux.conf" ["tmux", "tmux.conf"]
      (home ++ [".tmux", "tmux.conf"]) hNLhome8 l8 hres8 (hnode _ (by decide))
  · obtain ⟨rfl, rfl⟩ := h
    exact checkEntryStatus_correct f8 cwd home ".screenrc" ["screenrc"]
      (cwd ++ ["screenrc"]) hNLhome8 l2 (htgtD _) (hnode _ (by decide))
  · obtain ⟨rfl, rfl⟩ := h
    have hsplit : home ++ [".ssh", "rc"] = (home ++ [".ssh"]) ++ ["rc"] := by
      simp
    rw [hsplit]
    exact checkEntryStatus_correct f8 cwd (home ++ [".ssh"]) "rc" ["sshrc"]
      (cwd ++ ["sshrc"]) hNLssh8 (hsplit ▸ l3) (htgtD _) (hnode _ (by decide))
  · obtain ⟨rfl, rfl⟩ := h
    exact checkEntryStatus_correct f8 cwd home ".tmux" ["tmux"]
      (cwd ++ ["tmux"]) hNLhome8 l6 (htgtD _) (hnode _ (by decide))
  · obtain ⟨rfl, rfl⟩ := h
    exact checkEntryStatus_correct f8 cwd home ".zplug" ["zsh", "zplug"]
      (cwd ++ ["zsh", "zplug"]) hNLhome8 l5 (htgtD _) (hnode _ (by decide))
  · obtain ⟨rfl, rfl⟩ := h
    exact checkEntryStatus_correct f8 cwd home ".tools" ["tools"]
      (cwd ++ ["tools"]) hNLhome8 l7 (htgtD _) (hnode _ (by decide))

theorem c4_witness :
    (¬ c4Home <+: c4Cwd) ∧ (¬ c4Cwd <+: c4Home) ∧
    c4Fs0.all (fun e => !decide (e.1 <+: c4Home) || decide (e.2 = Node.dir)) = true ∧
    c4Fs0.all
      (fun e => !isLinkNode e.2 ||
        (!decide (e.1 <+: c4Cwd) && !decide (c4Cwd <+: e.1))) = true ∧
    c4Fs0.all
      (fun e => !decide (e.1 = c4Home ++ [".ssh"]) || decide (e.2 = Node.dir)) = true ∧
    repoSources.all (fun r => (lookupFs c4Fs0 (c4Cwd ++ r)).isSome) = true ∧
    (c4Home ++ [".tmux.conf"], ["tmux", "tmux.conf"]) ∈
      managedDotfiles c4Home ++ managedDirectories c4Home ∧
    (∃ fsF, installDotfiles c4Cwd c4Home c4Fs0 = some fsF ∧
      checkEntryStatus fsF c4Cwd (c4Home ++ [".tmux.conf"]) ["tmux", "tmux.conf"] =
        LinkStatus.correctlyLinked) :=
  ⟨by decide, by decide, rfl, rfl, rfl, rfl, by decide,
    c4_install_produces_checked_symlinks c4Fs0 c4Home c4Cwd
      (c4Home ++ [".tmux.conf"]) ["tmux", "tmux.conf"]
      (by decide) (by decide) rfl rfl rfl rfl (by decide)⟩
